import Mathlib

/-!
Verification of tui-go-example

Shallow embedding of `main.go`: the two record kinds, the seeding routine
`initData`, the accessors `fetchWorkers` / `fetchDevices`, the renderer
`displayTable` and the key dispatcher installed by `main`, together with the
parts of the libraries they call (Go `fmt` formatting and scanning, the bolt
key/value store, the tview table and page container).

Conventions.
* Go `int` is 64 bit; record IDs are `Int` and the scanner rejects values
  outside the signed 64-bit range, as `strconv.ParseInt` does.
* Byte strings are Lean `String`s, i.e. valid UTF-8 text; their order is the
  lexicographic order of code points, which is the byte order bolt uses.
* A Go panic inside `fmt.Sscanf` is recovered by the library and becomes the
  returned error; `log.Fatal` is the `Except.error` result of a function.
* Failures of the store file itself (open, commit) are outside the model: a
  transaction fails only through the error its function returns.
* The key handler returns the event, so `Application.Run` goes on with it:
  Ctrl-C stops the application, which the model keeps; any other key is
  handed to the focused table, which moves its selection and never touches
  cells or pages, and that part of the event loop is left out.
-/

namespace TuiGo

/-! ## Records (main.go, lines 12-22) -/

/-- The `Worker` struct. The field `Type` is spelled `Type_`. -/
structure Worker where
  ID : Int
  Name : String
  Type_ : String
deriving DecidableEq, Repr

/-- The `Device` struct. -/
structure Device where
  ID : Int
  Host : String
  Name : String
deriving DecidableEq, Repr

/-! ## Go `fmt`: formatting -/

/-- The verb `%d` applied to an `int`: decimal digits with a leading minus
sign for negative numbers. -/
def formatInt : Int → String
  | Int.ofNat n => Nat.repr n
  | Int.negSucc n => "-" ++ Nat.repr (n + 1)

/-- The verb `%c` applied to an `int`: the character with that code point,
the replacement character U+FFFD when the number is not a code point. -/
def formatRune (r : Int) : String :=
  if 0 ≤ r ∧ Nat.isValidChar r.toNat then String.singleton (Char.ofNat r.toNat)
  else String.singleton (Char.ofNat 0xFFFD)

/-! ## Go `fmt`: scanning (`fmt/scan.go`) -/

/-- The constant `hugeWid = 1 << 30`: the scanner reads at most this many
runes of its input. -/
def hugeWid : Nat := 2 ^ 30

/-- The table `space` of white-space ranges. -/
def space : List (Nat × Nat) :=
  [(0x0009, 0x000d), (0x0020, 0x0020), (0x0085, 0x0085), (0x00a0, 0x00a0),
   (0x1680, 0x1680), (0x2000, 0x200a), (0x2028, 0x2029), (0x202f, 0x202f),
   (0x205f, 0x205f), (0x3000, 0x3000)]

/-- The loop of `isSpace` over the ranges of the table. -/
def isSpaceIn (rx : Nat) : List (Nat × Nat) → Bool
  | [] => false
  | rng :: rest =>
    if rx < rng.1 then false
    else if rx ≤ rng.2 then true
    else isSpaceIn rx rest

/-- The function `isSpace`. -/
def isSpace (r : Char) : Bool :=
  if r.toNat ≥ 2 ^ 16 then false else isSpaceIn r.toNat space

/-- The function `notSpace`. -/
def notSpace (r : Char) : Bool := !isSpace r

/-- The scan state `ss`: the runes not yet read and the token buffer. -/
structure ss where
  rs : List Char
  buf : List Char
deriving DecidableEq, Repr

/-- The method `peek`: is the next rune one of `ok`? Nothing is consumed. -/
def peek (ok : List Char) : List Char → Bool
  | [] => false
  | r :: _ => decide (r ∈ ok)

/-- The method `SkipSpace` with `nlIsSpace = false`: white space is dropped, a
newline is an error. -/
def SkipSpace : List Char → Except String (List Char)
  | [] => .ok []
  | r :: rest =>
    if r = '\r' ∧ peek ['\n'] rest = true then SkipSpace rest
    else if r = '\n' then .error "unexpected newline"
    else if isSpace r = false then .ok (r :: rest)
    else SkipSpace rest

/-- The method `notEOF`. -/
def notEOF : List Char → Except String Unit
  | [] => .error "EOF"
  | _ :: _ => .ok ()

/-- The method `accept` (`consume` with `accept = true`): a rune of `ok` is
moved to the token buffer, any other rune is put back. -/
def accept (ok : List Char) (s : ss) : Bool × ss :=
  match s.rs with
  | [] => (false, s)
  | r :: rest =>
    if r ∈ ok then (true, { rs := rest, buf := s.buf ++ [r] })
    else (false, s)

/-- The loop `for s.accept(digits) {}`. -/
def acceptLoop (ok : List Char) : List Char → List Char → ss
  | [], buf => { rs := [], buf := buf }
  | r :: rest, buf =>
    if r ∈ ok then acceptLoop ok rest (buf ++ [r])
    else { rs := r :: rest, buf := buf }

/-- The constant `decimalDigits`. -/
def decimalDigits : List Char := "0123456789".data

/-- The constant `sign`. -/
def sign : List Char := "+-".data

/-- The method `scanNumber` with `haveDigits = false`. -/
def scanNumber (digits : List Char) (s : ss) : Except String (List Char × ss) :=
  match notEOF s.rs with
  | .error e => .error e
  | .ok _ =>
    let r := accept digits s
    if r.1 = false then .error "expected integer"
    else
      let s2 := acceptLoop digits r.2.rs r.2.buf
      .ok (s2.buf, s2)

/-- The function `strconv.ParseUint` in base 10 with 64 bits. -/
def ParseUint (tok : List Char) : Except String Nat :=
  if tok = [] then .error "invalid syntax"
  else if tok.all (fun c => decide (c ∈ decimalDigits)) = false then
    .error "invalid syntax"
  else
    let n := tok.foldl (fun acc c => 10 * acc + (c.toNat - '0'.toNat)) 0
    if n ≥ 2 ^ 64 then .error "value out of range" else .ok n

/-- The function `strconv.ParseInt` in base 10 with 64 bits. -/
def ParseInt (tok : List Char) : Except String Int :=
  if tok = [] then .error "invalid syntax"
  else
    let neg := decide (tok.head? = some '-')
    let digits :=
      if tok.head? = some '+' ∨ tok.head? = some '-' then tok.tail else tok
    match ParseUint digits with
    | .error e => .error e
    | .ok un =>
      if neg = false ∧ un ≥ 2 ^ 63 then .error "value out of range"
      else if neg = true ∧ un > 2 ^ 63 then .error "value out of range"
      else .ok (if neg then - (un : Int) else (un : Int))

/-- The method `scanInt` for the verb `%d` and `bitSize = 64`. -/
def scanInt (s : ss) : Except String (Int × ss) :=
  match SkipSpace s.rs with
  | .error e => .error e
  | .ok rs1 =>
    match notEOF rs1 with
    | .error e => .error e
    | .ok _ =>
      let s1 := (accept sign { rs := rs1, buf := s.buf }).2
      match scanNumber decimalDigits s1 with
      | .error e => .error e
      | .ok (tok, s2) =>
        match ParseInt tok with
        | .error e => .error e
        | .ok i => .ok (i, s2)

/-- The method `token(true, f)`: skip white space, then read runes while `f`
holds. -/
def tokenLoop (f : Char → Bool) : List Char → List Char → ss
  | [], buf => { rs := [], buf := buf }
  | r :: rest, buf =>
    if f r = false then { rs := r :: rest, buf := buf }
    else tokenLoop f rest (buf ++ [r])

/-- The method `token` with `skipSpace = true`. -/
def token (f : Char → Bool) (s : ss) : Except String (List Char × ss) :=
  match SkipSpace s.rs with
  | .error e => .error e
  | .ok rs1 =>
    let s2 := tokenLoop f rs1 s.buf
    .ok (s2.buf, s2)

/-- The method `convertString` for the verb `%s`: the next word. -/
def convertString (s : ss) : Except String (String × ss) :=
  match SkipSpace s.rs with
  | .error e => .error e
  | .ok rs1 =>
    match notEOF rs1 with
    | .error e => .error e
    | .ok _ =>
      match token notSpace { rs := rs1, buf := s.buf } with
      | .error e => .error e
      | .ok (tok, s2) => .ok (String.mk tok, s2)

/-- The verbs used by the program. -/
inductive Verb where
  | d
  | s
deriving DecidableEq, Repr

/-- One element of a format string: a literal rune that is neither white
space nor a percent sign, or a verb without width. -/
inductive Directive where
  | lit (c : Char)
  | verb (v : Verb)
deriving DecidableEq, Repr

/-- A destination operand of `Sscanf`: a pointer to an `int` or to a `string`
inside a variable of type `σ`, given by the assignment through it. -/
inductive Arg (σ : Type) where
  | int (set : Int → σ → σ)
  | string (set : String → σ → σ)

/-- What a call of `Sscanf` leaves behind: the variable the operands point
into, the number of operands assigned and the error. -/
structure Scanned (σ : Type) where
  mem : σ
  n : Nat
  err : Option String

/-- The method `scanOne`: the token buffer is emptied, then the operand is
scanned according to its type and assigned. -/
def scanOne {σ : Type} (verb : Verb) (arg : Arg σ) (s : ss) (m : σ) :
    Except String (σ × ss) :=
  let s0 : ss := { rs := s.rs, buf := [] }
  match arg, verb with
  | .int set, .d =>
    match scanInt s0 with
    | .error e => .error e
    | .ok (i, s1) => .ok (set i m, s1)
  | .int _, .s => .error "bad verb '%s' for integer"
  | .string set, .s =>
    match convertString s0 with
    | .error e => .error e
    | .ok (str, s1) => .ok (set str m, s1)
  | .string _, .d => .error "bad verb '%d' for string"

/-- The method `doScanf`, one directive at a time. A literal must equal the
next input rune (`advance`); a verb skips white space and scans one operand. A
failure ends the scan and is returned, keeping what was assigned before. -/
def doScanf {σ : Type} :
    List Directive → List (Arg σ) → ss → σ → Nat → Scanned σ
  | [], a, _, m, n =>
    if a.length = 0 then { mem := m, n := n, err := none }
    else { mem := m, n := n, err := some "too many operands" }
  | .lit fmtc :: format, a, s, m, n =>
    match s.rs with
    | [] => { mem := m, n := n, err := some "unexpected EOF" }
    | inputc :: rest =>
      if fmtc ≠ inputc then
        { mem := m, n := n, err := some "input does not match format" }
      else doScanf format a { rs := rest, buf := s.buf } m n
  | .verb c :: format, a, s, m, n =>
    match SkipSpace s.rs with
    | .error e => { mem := m, n := n, err := some e }
    | .ok rs1 =>
      match a with
      | [] => { mem := m, n := n, err := some "too few operands for format" }
      | arg :: a1 =>
        match scanOne c arg { rs := rs1, buf := s.buf } m with
        | .error e => { mem := m, n := n, err := some e }
        | .ok (m1, s1) => doScanf format a1 s1 m1 (n + 1)

/-- The function `fmt.Sscanf`. -/
def Sscanf {σ : Type} (str : String) (format : List Directive)
    (a : List (Arg σ)) (m : σ) : Scanned σ :=
  doScanf format a { rs := str.data.take hugeWid, buf := [] } m 0

/-- The format string `"%d,%s,%s"`. -/
def recordFormat : List Directive :=
  [.verb .d, .lit ',', .verb .s, .lit ',', .verb .s]

/-- The callback of `fetchWorkers` (lines 129-130): a zero `Worker` filled by
`fmt.Sscanf(string(v), "%d,%s,%s", &worker.ID, &worker.Name, &worker.Type)`;
the error of the call is dropped. -/
def scanWorker (v : String) : Scanned Worker :=
  Sscanf v recordFormat
    [.int (fun x w => { w with ID := x }),
     .string (fun x w => { w with Name := x }),
     .string (fun x w => { w with Type_ := x })]
    { ID := 0, Name := "", Type_ := "" : Worker }

/-- The record the callback of `fetchWorkers` appends. -/
def decodeWorker (v : String) : Worker :=
  (scanWorker v).mem

/-- The callback of `fetchDevices` (lines 149-150). -/
def scanDevice (v : String) : Scanned Device :=
  Sscanf v recordFormat
    [.int (fun x d => { d with ID := x }),
     .string (fun x d => { d with Host := x }),
     .string (fun x d => { d with Name := x })]
    { ID := 0, Host := "", Name := "" : Device }

/-- The record the callback of `fetchDevices` appends. -/
def decodeDevice (v : String) : Device :=
  (scanDevice v).mem

/-! ## bolt: buckets and transactions -/

/-- What a key of a bucket holds: a byte string, or a nested bucket (leaf flag
`bucketLeafFlag`). The program never opens a nested bucket, so its contents
are not part of the model. -/
inductive Value where
  | bytes (v : String)
  | bucket
deriving DecidableEq, Repr

/-- The elements of a bucket, in the order of its cursor. -/
abbrev Bucket := List (String × Value)

/-- The root of the store file: the top-level buckets by name, in the order of
the root cursor. -/
abbrev DB := List (String × Bucket)

/-- The constant `MaxKeySize`. -/
def MaxKeySize : Nat := 32768

/-- The constant `MaxValueSize = (1 << 31) - 2`. -/
def MaxValueSize : Nat := 2 ^ 31 - 2

/-- Lexicographic comparison of two rune sequences by code point. -/
def compareRunes : List Char → List Char → Ordering
  | [], [] => .eq
  | [], _ :: _ => .lt
  | _ :: _, [] => .gt
  | a :: as, b :: bs =>
    if a.toNat < b.toNat then .lt
    else if b.toNat < a.toNat then .gt
    else compareRunes as bs

/-- The function `bytes.Compare` on keys: on UTF-8 text the byte order is the
code point order. -/
def bytesCompare (a b : String) : Ordering :=
  compareRunes a.data b.data

/-- The method `Cursor.seek`: the first element whose key is not below `key`
(`bytes.Compare(k, key) != -1`). -/
def seek {α : Type} (key : String) : List (String × α) → Option (String × α)
  | [] => none
  | e :: es => if bytesCompare e.1 key = .lt then seek key es else some e

/-- The method `node.put`: the element is written at the position `seek`
finds, replacing an element with the same key and inserted otherwise. -/
def nodePut {α : Type} (key : String) (v : α) :
    List (String × α) → List (String × α)
  | [] => [(key, v)]
  | e :: es =>
    if bytesCompare e.1 key = .lt then e :: nodePut key v es
    else if e.1 = key then (key, v) :: es
    else (key, v) :: e :: es

/-- The element stored under exactly `key`, if there is one. -/
def lookup {α : Type} (key : String) (l : List (String × α)) : Option α :=
  match seek key l with
  | some (k, v) => if key = k then some v else none
  | none => none

/-- The method `Tx.Bucket`: the top-level bucket of that name, `none` for the
nil result. -/
def Tx.Bucket (tx : DB) (name : String) : Option Bucket :=
  lookup name tx

/-- The method `Tx.CreateBucketIfNotExists`: an existing bucket is kept, a
missing one is created empty. -/
def CreateBucketIfNotExists (tx : DB) (name : String) : Except String DB :=
  if name.utf8ByteSize = 0 then .error "bucket name required"
  else
    match Tx.Bucket tx name with
    | some _ => .ok tx
    | none => .ok (nodePut name [] tx)

/-- The method `Bucket.Put` on the elements of a bucket. -/
def Bucket.Put (b : Bucket) (key value : String) : Except String Bucket :=
  if key.utf8ByteSize = 0 then .error "key required"
  else if key.utf8ByteSize > MaxKeySize then .error "key too large"
  else if value.utf8ByteSize > MaxValueSize then .error "value too large"
  else
    match seek key b with
    | some (k, Value.bucket) =>
      if key = k then .error "incompatible value"
      else .ok (nodePut key (Value.bytes value) b)
    | _ => .ok (nodePut key (Value.bytes value) b)

/-- The method `Bucket.Put` through the handle of the top-level bucket `name`
of a writable transaction. -/
def Handle.Put (tx : DB) (name key value : String) : Except String DB :=
  match Tx.Bucket tx name with
  | none => .error "tx closed"
  | some b =>
    match Bucket.Put b key value with
    | .error e => .error e
    | .ok b1 => .ok (nodePut name b1 tx)

/-- The bytes a cursor hands out for an element: nil, the empty string once
converted, for a nested bucket. -/
def Value.toBytes : Value → String
  | .bytes v => v
  | .bucket => ""

/-- The method `Bucket.ForEach`: the callback runs on every element in cursor
order and updates the variables it captured; its first error ends the loop. -/
def ForEach {σ : Type} (fn : String → String → σ → Except String σ) :
    Bucket → σ → Except String σ
  | [], acc => .ok acc
  | e :: es, acc =>
    match fn e.1 e.2.toBytes acc with
    | .error err => .error err
    | .ok acc1 => ForEach fn es acc1

/-- The method `DB.Update`: the error of the function and the store
afterwards, which is the committed transaction, or the old store after the
rollback when the function failed. -/
def Update (fn : DB → Except String DB) (db : DB) : Option String × DB :=
  match fn db with
  | .ok tx => (none, tx)
  | .error e => (some e, db)

/-- The method `DB.View`. -/
def View {α : Type} (fn : DB → Except String α) (db : DB) : Except String α :=
  fn db

/-! ## The seeder (main.go, lines 70-107) -/

/-- The record `worker` of line 80 for one `i`. -/
def newWorker (i : Int) : Worker :=
  { ID := i, Name := "Worker " ++ formatInt i,
    Type_ := "Type " ++ formatRune ('A'.toNat + i - 1) }

/-- The string `data` of line 81: `fmt.Sprintf("%d,%s,%s", ...)`. -/
def encodeWorker (worker : Worker) : String :=
  formatInt worker.ID ++ "," ++ worker.Name ++ "," ++ worker.Type_

/-- The body of the first loop of `initData` for one `i`. -/
def putWorker (tx : DB) (i : Int) : Except String DB :=
  let worker := newWorker i
  let data := encodeWorker worker
  Handle.Put tx "workers" ("w" ++ formatInt i) data

/-- The record `device` of line 95 for one `i`. -/
def newDevice (i : Int) : Device :=
  { ID := i, Host := "Host " ++ formatInt i, Name := "Device " ++ formatInt i }

/-- The string `data` of line 96. -/
def encodeDevice (device : Device) : String :=
  formatInt device.ID ++ "," ++ device.Host ++ "," ++ device.Name

/-- The body of the second loop of `initData` for one `i`. -/
def putDevice (tx : DB) (i : Int) : Except String DB :=
  let device := newDevice i
  let data := encodeDevice device
  Handle.Put tx "devices" ("d" ++ formatInt i) data

/-- A loop `for i := 1; i <= 3; i++` whose body may return an error. -/
def forLoop (body : DB → Int → Except String DB) :
    List Int → DB → Except String DB
  | [], tx => .ok tx
  | i :: is, tx =>
    match body tx i with
    | .error e => .error e
    | .ok tx1 => forLoop body is tx1

/-- The function passed to `db.Update` by `initData`. -/
def initDataTx (tx : DB) : Except String DB :=
  match CreateBucketIfNotExists tx "workers" with
  | .error err => .error err
  | .ok tx1 =>
    match forLoop putWorker [1, 2, 3] tx1 with
    | .error err => .error err
    | .ok tx2 =>
      match CreateBucketIfNotExists tx2 "devices" with
      | .error err => .error err
      | .ok tx3 => forLoop putDevice [1, 2, 3] tx3

/-- The function `initData`: the store after the update, or the error passed
to `log.Fatal`. -/
def initData (db : DB) : Except String DB :=
  match Update initDataTx db with
  | (some err, _) => .error err
  | (none, db1) => .ok db1

/-- The contents of the store file once `initData` has run, whether it
returned or ended the process. -/
def storeAfterInitData (db : DB) : DB :=
  (Update initDataTx db).2

/-! ## The accessors (main.go, lines 121-159) -/

/-- The function `fetchWorkers`; the error is the one passed to `log.Fatal`. -/
def fetchWorkers (db : DB) : Except String (List Worker) :=
  View (fun tx =>
    match Tx.Bucket tx "workers" with
    | none => .error "bucket not found"
    | some bucket =>
      ForEach (fun _ v workersData => .ok (workersData ++ [decodeWorker v]))
        bucket []) db

/-- The function `fetchDevices`. -/
def fetchDevices (db : DB) : Except String (List Device) :=
  View (fun tx =>
    match Tx.Bucket tx "devices" with
    | none => .error "bucket not found"
    | some bucket =>
      ForEach (fun _ v devicesData => .ok (devicesData ++ [decodeDevice v]))
        bucket []) db

/-! ## tview: tables and pages -/

/-- The colours that occur: the zero value `tcell.ColorDefault`, the colour
`Styles.PrimaryTextColor` of a new cell, and `tcell.ColorYellow`. -/
inductive Color where
  | default
  | primaryText
  | yellow
deriving DecidableEq, Repr

/-- A table cell: its text and text colour. -/
structure TableCell where
  Text : String
  Color : TuiGo.Color
deriving DecidableEq, Repr

/-- The function `tview.NewTableCell`. -/
def NewTableCell (text : String) : TableCell :=
  { Text := text, Color := .primaryText }

/-- The method `TableCell.SetTextColor`. -/
def TableCell.SetTextColor (c : TableCell) (color : TuiGo.Color) : TableCell :=
  { c with Color := color }

/-- The cells of a `tview.Table`, row by row. -/
abbrev Table := List (List TableCell)

/-- The method `Table.Clear`: all cells are dropped. -/
def Table.Clear (_ : Table) : Table := []

/-- The method `Table.SetCell`: the table grows by empty rows up to `row`,
the row grows by zero-valued cells up to `column`, then the cell is stored. -/
def SetCell (t : Table) (row column : Nat) (cell : TableCell) : Table :=
  let cells :=
    if row ≥ t.length then t ++ List.replicate (row - t.length + 1) [] else t
  let r := cells.getD row []
  let r1 :=
    if column ≥ r.length then
      r ++ List.replicate (column - r.length) { Text := "", Color := .default }
        ++ [cell]
    else r.set column cell
  cells.set row r1

/-- A page of a `tview.Pages` container. -/
structure Page where
  Name : String
  Visible : Bool
deriving DecidableEq, Repr

/-- The pages of a `tview.Pages` container, in the order they were added. -/
abbrev Pages := List Page

/-- The method `Pages.AddPage`: a page of the same name is removed, the new
page is appended. -/
def AddPage (pages : Pages) (name : String) (visible : Bool) : Pages :=
  pages.eraseP (fun pg => pg.Name = name) ++ [{ Name := name, Visible := visible }]

/-- The method `Pages.SwitchToPage`: the named page becomes visible, every
other page invisible. -/
def SwitchToPage (pages : Pages) (name : String) : Pages :=
  pages.map (fun page =>
    if page.Name = name then { page with Visible := true }
    else { page with Visible := false })

/-! ## The renderer (main.go, lines 161-184) -/

/-- The dynamic type of the argument `data interface{}` of `displayTable`. -/
inductive Data where
  | workers (data : List Worker)
  | devices (data : List Device)
  | other

/-- A loop `for i, x := range xs` over a slice, `i` counting from `start`. -/
def rangeLoop {α σ : Type} (body : σ → Nat → α → σ) : List α → Nat → σ → σ
  | [], _, s => s
  | x :: xs, i, s => rangeLoop body xs (i + 1) (body s i x)

/-- The function `displayTable`. -/
def displayTable (table : Table) (data : Data) : Table :=
  let table := Table.Clear table
  match data with
  | .workers data =>
    let table := rangeLoop (fun table i col =>
        SetCell table 0 i ((NewTableCell col).SetTextColor .yellow))
      ["ID", "Name", "Type"] 0 table
    rangeLoop (fun table r w =>
        let table := SetCell table (r + 1) 0 (NewTableCell (formatInt w.ID))
        let table := SetCell table (r + 1) 1 (NewTableCell w.Name)
        SetCell table (r + 1) 2 (NewTableCell w.Type_))
      data 0 table
  | .devices data =>
    let table := rangeLoop (fun table i col =>
        SetCell table 0 i ((NewTableCell col).SetTextColor .yellow))
      ["ID", "Host", "Name"] 0 table
    rangeLoop (fun table r d =>
        let table := SetCell table (r + 1) 0 (NewTableCell (formatInt d.ID))
        let table := SetCell table (r + 1) 1 (NewTableCell d.Host)
        SetCell table (r + 1) 2 (NewTableCell d.Name))
      data 0 table
  | .other => table

/-! ## The navigation shell (main.go, lines 24-68 and 109-119) -/

/-- A call of an accessor or of the renderer. -/
inductive Call where
  | fetchWorkers
  | fetchDevices
  | displayTable (page : String)
deriving DecidableEq, Repr

/-- The global variables of the program: whether `app.Stop()` was called, the
page container, the two tables, the store, and as a history variable the
accessor and renderer calls made so far. -/
structure App where
  stopped : Bool
  pages : Pages
  workers : Table
  devices : Table
  db : DB
  calls : List Call
deriving DecidableEq, Repr

/-- The function `showWorkers`; the error is the one `fetchWorkers` passes to
`log.Fatal`. -/
def showWorkers (a : App) : Except String App :=
  match fetchWorkers a.db with
  | .error e => .error e
  | .ok workersData =>
    .ok { a with
      workers := displayTable a.workers (.workers workersData)
      pages := SwitchToPage a.pages "Workers"
      calls := a.calls ++ [.fetchWorkers, .displayTable "Workers"] }

/-- The function `showDevices`. -/
def showDevices (a : App) : Except String App :=
  match fetchDevices a.db with
  | .error e => .error e
  | .ok devicesData =>
    .ok { a with
      devices := displayTable a.devices (.devices devicesData)
      pages := SwitchToPage a.pages "Devices"
      calls := a.calls ++ [.fetchDevices, .displayTable "Devices"] }

/-- The handler given to `app.SetInputCapture`, applied to the rune of the
key event. -/
def inputCapture (rune : Char) (a : App) : Except String App :=
  if rune = 'q' then .ok { a with stopped := true }
  else if rune = 'a' then showWorkers a
  else if rune = 'b' then showDevices a
  else .ok a

/-- The function `main` up to the start of the event loop, on the store that
`bolt.Open` found in `data.db`: the seeder runs and the two pages are added,
neither visible. -/
def main (db : DB) : Except String App :=
  match initData db with
  | .error e => .error e
  | .ok db1 =>
    .ok { stopped := false
          pages := AddPage (AddPage [] "Workers" false) "Devices" false
          workers := []
          devices := []
          db := db1
          calls := [] }

/-- The key code `tcell.KeyRune` of a key that carries a rune. -/
def KeyRune : Nat := 256

/-- The key code `tcell.KeyCtrlC`. -/
def KeyCtrlC : Nat := 3

/-- A key event `tcell.EventKey`: what `Key()` and `Rune()` return. -/
structure EventKey where
  Key : Nat
  Rune : Char
deriving DecidableEq, Repr

/-- The function `tcell.NewEventKey`: a rune key whose rune is a control
character or DEL gets that character as its key code. -/
def NewEventKey (k : Nat) (ch : Char) : EventKey :=
  if k = KeyRune ∧ (ch.toNat < 32 ∨ ch.toNat = 0x7f) then { Key := ch.toNat, Rune := ch }
  else { Key := k, Rune := ch }

/-- The case `*tcell.EventKey` of the event loop of `Application.Run`: the
handler gets the event and returns it, then Ctrl-C stops the application. -/
def dispatch (event : EventKey) (a : App) : Except String App :=
  match inputCapture event.Rune a with
  | .error e => .error e
  | .ok a1 =>
    if event.Key = KeyCtrlC then .ok { a1 with stopped := true }
    else .ok a1

/-- The event loop of `app.Run` on a sequence of key events: events are
dispatched until the application is stopped. -/
def run : List EventKey → App → Except String App
  | [], a => .ok a
  | event :: rest, a =>
    if a.stopped = true then .ok a
    else
      match dispatch event a with
      | .error e => .error e
      | .ok a1 => run rest a1

/-- The names of the visible pages. -/
def visiblePages (a : App) : List String :=
  (a.pages.filter (fun pg => pg.Visible)).map (fun pg => pg.Name)

/-- The texts of the cells of a table. -/
def texts (t : Table) : List (List String) :=
  t.map (fun row => row.map (fun c => c.Text))

/-- The elements are in strictly ascending key order, as a bolt cursor
delivers them. -/
def Sorted {α : Type} (l : List (String × α)) : Prop :=
  l.Pairwise (fun x y => bytesCompare x.1 y.1 = .lt)

instance {α : Type} (l : List (String × α)) : Decidable (Sorted l) := by
  unfold Sorted
  infer_instance

/-- The shape of a store file: the top-level buckets and the elements of each
of them are in strictly ascending key order. -/
def WellFormed (db : DB) : Prop :=
  Sorted db ∧ ∀ e ∈ db, Sorted e.2

instance (db : DB) : Decidable (WellFormed db) := by
  unfold WellFormed
  infer_instance

/-- The elements the first loop of `initData` leaves in a bucket that held
`b`. -/
def seedWorkers (b : Bucket) : Bucket :=
  nodePut "w3" (.bytes "3,Worker 3,Type C")
    (nodePut "w2" (.bytes "2,Worker 2,Type B")
      (nodePut "w1" (.bytes "1,Worker 1,Type A") b))

/-- The elements the second loop of `initData` leaves in a bucket that held
`b`. -/
def seedDevices (b : Bucket) : Bucket :=
  nodePut "d3" (.bytes "3,Host 3,Device 3")
    (nodePut "d2" (.bytes "2,Host 2,Device 2")
      (nodePut "d1" (.bytes "1,Host 1,Device 1") b))

/-- The states the program can be in while the event loop runs: the state
`main` starts the loop in, on any store file, and every state the loop reaches
by a key event from a reachable state that is not stopped. -/
inductive Reachable : App → Prop where
  | start (db0 : DB) (s0 : App) : main db0 = .ok s0 → Reachable s0
  | key (s s1 : App) (event : EventKey) :
    Reachable s → s.stopped = false → dispatch event s = .ok s1 → Reachable s1

/-- The state in which `main` starts the event loop on a fresh store file. -/
def freshStart : App :=
  { stopped := false
    pages := [{ Name := "Workers", Visible := false }, { Name := "Devices", Visible := false }]
    workers := []
    devices := []
    db := [("devices", [("d1", .bytes "1,Host 1,Device 1"),
              ("d2", .bytes "2,Host 2,Device 2"), ("d3", .bytes "3,Host 3,Device 3")]),
           ("workers", [("w1", .bytes "1,Worker 1,Type A"),
              ("w2", .bytes "2,Worker 2,Type B"), ("w3", .bytes "3,Worker 3,Type C")])]
    calls := [] }

/-- Invariant of the event loop: both buckets exist and the page container
holds the pages "Workers" and "Devices", at most one of them visible. -/
def Inv (s : App) : Prop :=
  (Tx.Bucket s.db "workers").isSome = true ∧ (Tx.Bucket s.db "devices").isSome = true ∧
  (s.pages = [{ Name := "Workers", Visible := false }, { Name := "Devices", Visible := false }] ∨
   s.pages = [{ Name := "Workers", Visible := true }, { Name := "Devices", Visible := false }] ∨
   s.pages = [{ Name := "Workers", Visible := false }, { Name := "Devices", Visible := true }])

/-- The header row `displayTable` writes for the given column names. -/
def headerRow (cols : List String) : List TableCell :=
  cols.map (fun col => (NewTableCell col).SetTextColor .yellow)

/-- The data row `displayTable` writes for a worker. -/
def workerRow (w : Worker) : List TableCell :=
  [NewTableCell (formatInt w.ID), NewTableCell w.Name, NewTableCell w.Type_]

/-- The data row `displayTable` writes for a device. -/
def deviceRow (d : Device) : List TableCell :=
  [NewTableCell (formatInt d.ID), NewTableCell d.Host, NewTableCell d.Name]

/-- The store a successful run of `initData` leaves from `db`: the seeded
elements are put into the two buckets, created empty where missing. -/
def seeded (db : DB) : DB :=
  nodePut "devices" (seedDevices ((Tx.Bucket db "devices").getD []))
    (nodePut "workers" (seedWorkers ((Tx.Bucket db "workers").getD [])) db)

/-- None of the listed keys of the bucket holds a nested bucket. -/
def noNested (keys : List String) (b : Bucket) : Prop :=
  ∀ k ∈ keys, lookup k b ≠ some Value.bucket

instance (keys : List String) (b : Bucket) : Decidable (noNested keys b) := by
  unfold noNested
  infer_instance

/-! ## The scanner stops after the first word -/

theorem isSpace_ne_comma (r : Char) (h : isSpace r = true) : r ≠ ',' := by
  intro hr
  subst hr
  revert h
  decide

theorem tokenLoop_rest (f : Char → Bool) (rs buf : List Char) :
    (tokenLoop f rs buf).rs = [] ∨
      ∃ r rest, (tokenLoop f rs buf).rs = r :: rest ∧ f r = false := by
  induction rs generalizing buf with
  | nil => left; rfl
  | cons r rest ih =>
    unfold tokenLoop
    by_cases hf : f r = false
    · right
      exact ⟨r, rest, by simp [hf], hf⟩
    · simp only [hf, if_false]
      exact ih _

theorem token_rest (f : Char → Bool) (s s2 : ss) (tok : List Char)
    (h : token f s = .ok (tok, s2)) :
    s2.rs = [] ∨ ∃ r rest, s2.rs = r :: rest ∧ f r = false := by
  unfold token at h
  cases hs : SkipSpace s.rs with
  | error e => simp [hs] at h
  | ok rs1 =>
    simp only [hs, Except.ok.injEq, Prod.mk.injEq] at h
    obtain ⟨-, rfl⟩ := h
    exact tokenLoop_rest f rs1 s.buf

theorem convertString_rest (s s2 : ss) (str : String)
    (h : convertString s = .ok (str, s2)) :
    s2.rs = [] ∨ ∃ r rest, s2.rs = r :: rest ∧ isSpace r = true := by
  unfold convertString at h
  cases hs : SkipSpace s.rs with
  | error e => simp [hs] at h
  | ok rs1 =>
    cases he : notEOF rs1 with
    | error e => simp [hs, he] at h
    | ok u =>
      cases ht : token notSpace { rs := rs1, buf := s.buf } with
      | error e => simp [hs, he, ht] at h
      | ok p =>
        obtain ⟨tok, s3⟩ := p
        simp only [hs, he, ht, Except.ok.injEq, Prod.mk.injEq] at h
        obtain ⟨-, rfl⟩ := h
        rcases token_rest notSpace _ _ _ ht with h0 | ⟨r, rest, h1, h2⟩
        · left; exact h0
        · right
          refine ⟨r, rest, h1, ?_⟩
          simpa [notSpace] using h2

/-- After a `%s` operand the literal comma of the format never matches. -/
theorem doScanf_comma_after_word {σ : Type} (s s2 : ss) (str : String)
    (h : convertString s = .ok (str, s2)) (format : List Directive)
    (a : List (Arg σ)) (m : σ) (n : Nat) :
    (doScanf (.lit ',' :: format) a s2 m n).mem = m ∧
    (doScanf (.lit ',' :: format) a s2 m n).n = n ∧
    (doScanf (.lit ',' :: format) a s2 m n).err ≠ none := by
  rcases convertString_rest s s2 str h with h0 | ⟨r, rest, h1, h2⟩
  · simp [doScanf, h0]
  · have hne : ',' ≠ r := fun e => isSpace_ne_comma r h2 e.symm
    simp [doScanf, h1, hne]

/-- What `Sscanf` with the format `"%d,%s,%s"` leaves behind: an error, at most
two assignments, the third operand untouched. -/
theorem doScanf_recordFormat {σ : Type} (f1 : Int → σ → σ) (f2 f3 : String → σ → σ)
    (s : ss) (m : σ) :
    (doScanf recordFormat [.int f1, .string f2, .string f3] s m 0).err ≠ none ∧
    (doScanf recordFormat [.int f1, .string f2, .string f3] s m 0).n ≤ 2 ∧
    ((doScanf recordFormat [.int f1, .string f2, .string f3] s m 0).mem = m ∨
     (∃ i, (doScanf recordFormat [.int f1, .string f2, .string f3] s m 0).mem = f1 i m) ∨
     ∃ i str, (doScanf recordFormat [.int f1, .string f2, .string f3] s m 0).mem
        = f2 str (f1 i m)) := by
  unfold recordFormat
  rw [doScanf]
  cases h1 : SkipSpace s.rs with
  | error e => simp
  | ok rs1 =>
    simp only [scanOne]
    cases h2 : scanInt { rs := rs1, buf := [] } with
    | error e => simp
    | ok p =>
      obtain ⟨i, s1⟩ := p
      simp only []
      rw [doScanf]
      cases h3 : s1.rs with
      | nil => exact ⟨by simp, by simp, Or.inr (Or.inl ⟨i, by simp⟩)⟩
      | cons c rest =>
        simp only []
        by_cases hc : ',' = c
        · subst hc
          simp only [ne_eq, not_true_eq_false, if_false]
          rw [doScanf]
          cases h4 : SkipSpace rest with
          | error e => exact ⟨by simp, by simp, Or.inr (Or.inl ⟨i, by simp⟩)⟩
          | ok rs2 =>
            simp only [scanOne]
            cases h5 : convertString { rs := rs2, buf := [] } with
            | error e => exact ⟨by simp, by simp, Or.inr (Or.inl ⟨i, by simp⟩)⟩
            | ok q =>
              obtain ⟨str, s3⟩ := q
              simp only []
              obtain ⟨e1, e2, e3⟩ := doScanf_comma_after_word _ s3 str h5
                [.verb .s] [.string f3] (f2 str (f1 i m)) (0 + 1 + 1)
              exact ⟨e3, by omega, Or.inr (Or.inr ⟨i, str, e1⟩)⟩
        · exact ⟨by simp [hc], by simp [hc], Or.inr (Or.inl ⟨i, by simp [hc]⟩)⟩

/-! ## The key order -/

theorem compareRunes_self (a : List Char) : compareRunes a a = .eq := by
  induction a with
  | nil => rfl
  | cons c cs ih => simp [compareRunes, ih]

theorem compareRunes_eq (a b : List Char) (h : compareRunes a b = .eq) : a = b := by
  induction a generalizing b with
  | nil => cases b <;> simp_all [compareRunes]
  | cons c cs ih =>
    cases b with
    | nil => simp [compareRunes] at h
    | cons d ds =>
      unfold compareRunes at h
      split at h
      · cases h
      · split at h
        · cases h
        · have hcd : c.toNat = d.toNat := by omega
          have hc : c = d := by
            have := congrArg Char.ofNat hcd
            simpa using this
          rw [hc, ih ds h]

theorem compareRunes_swap (a b : List Char) (h : compareRunes a b ≠ .lt) (hne : a ≠ b) :
    compareRunes b a = .lt := by
  induction a generalizing b with
  | nil => cases b <;> simp_all [compareRunes]
  | cons c cs ih =>
    cases b with
    | nil => simp [compareRunes]
    | cons d ds =>
      unfold compareRunes at h ⊢
      split at h
      · exact absurd rfl h
      · split at h
        · rename_i h1 h2
          simp [h2]
        · rename_i h1 h2
          have hcd : c.toNat = d.toNat := by omega
          have hc : c = d := by
            have := congrArg Char.ofNat hcd
            simpa using this
          subst hc
          simp only [lt_self_iff_false, if_false]
          exact ih ds h (fun e => hne (by rw [e]))

theorem compareRunes_asymm (a b : List Char) (h : compareRunes a b = .lt) :
    compareRunes b a ≠ .lt := by
  induction a generalizing b with
  | nil => cases b <;> simp_all [compareRunes]
  | cons c cs ih =>
    cases b with
    | nil => simp [compareRunes] at h
    | cons d ds =>
      unfold compareRunes at h ⊢
      split at h
      · rename_i h1
        have : ¬ d.toNat < c.toNat := by omega
        simp [this, h1]
      · split at h
        · cases h
        · rename_i h1 h2
          simp only [h2, h1, if_false]
          exact ih ds h

theorem compareRunes_trans (a b c : List Char) (h1 : compareRunes a b = .lt)
    (h2 : compareRunes b c = .lt) : compareRunes a c = .lt := by
  induction a generalizing b c with
  | nil =>
    cases b with
    | nil => simp [compareRunes] at h1
    | cons d ds =>
      cases c with
      | nil => simp [compareRunes] at h2
      | cons e es => simp [compareRunes]
  | cons x xs ih =>
    cases b with
    | nil => simp [compareRunes] at h1
    | cons d ds =>
      cases c with
      | nil => simp [compareRunes] at h2
      | cons e es =>
        unfold compareRunes at h1 h2 ⊢
        by_cases hxd : x.toNat < d.toNat
        · have hde : ¬ e.toNat < d.toNat := by
            intro hlt
            have hn : ¬ d.toNat < e.toNat := by omega
            simp [hn, hlt] at h2
          have : x.toNat < e.toNat := by omega
          simp [this]
        · simp only [hxd, if_false] at h1
          by_cases hdx : d.toNat < x.toNat
          · simp [hdx] at h1
          · simp only [hdx, if_false] at h1
            have hxd2 : x.toNat = d.toNat := by omega
            by_cases hde : d.toNat < e.toNat
            · have : x.toNat < e.toNat := by omega
              simp [this]
            · simp only [hde, if_false] at h2
              by_cases hed : e.toNat < d.toNat
              · simp [hed] at h2
              · simp only [hed, if_false] at h2
                have h3 : ¬ x.toNat < e.toNat := by omega
                have h4 : ¬ e.toNat < x.toNat := by omega
                simp only [h3, h4, if_false]
                exact ih ds es h1 h2

theorem bytesCompare_self (a : String) : bytesCompare a a ≠ .lt := by
  simp [bytesCompare, compareRunes_self]

theorem bytesCompare_swap (a b : String) (h : bytesCompare a b ≠ .lt) (hne : a ≠ b) :
    bytesCompare b a = .lt :=
  compareRunes_swap a.data b.data h (fun e => hne (String.ext e))

theorem bytesCompare_asymm (a b : String) (h : bytesCompare a b = .lt) :
    bytesCompare b a ≠ .lt :=
  compareRunes_asymm a.data b.data h

theorem bytesCompare_trans (a b c : String) (h1 : bytesCompare a b = .lt)
    (h2 : bytesCompare b c = .lt) : bytesCompare a c = .lt :=
  compareRunes_trans a.data b.data c.data h1 h2

theorem bytesCompare_ne (a b : String) (h : bytesCompare a b = .lt) : a ≠ b := by
  intro e
  subst e
  exact bytesCompare_self a h

/-! ## Lookup and `node.put` -/

theorem lookup_cons {α : Type} (k : String) (e : String × α) (es : List (String × α)) :
    lookup k (e :: es) =
      if bytesCompare e.1 k = .lt then lookup k es
      else if k = e.1 then some e.2 else none := by
  unfold lookup
  simp only [seek]
  by_cases h : bytesCompare e.1 k = .lt
  · simp only [h, if_true]
  · simp only [h, if_false]

theorem lookup_nil {α : Type} (k : String) : lookup k ([] : List (String × α)) = none := rfl

theorem lookup_nodePut_self {α : Type} (k : String) (v : α) (l : List (String × α)) :
    lookup k (nodePut k v l) = some v := by
  induction l with
  | nil => simp [nodePut, lookup_cons, bytesCompare_self]
  | cons e es ih =>
    unfold nodePut
    by_cases h1 : bytesCompare e.1 k = .lt
    · simp [h1, lookup_cons, ih]
    · by_cases h2 : e.1 = k
      · simp [h1, h2, lookup_cons, bytesCompare_self]
      · simp [h1, h2, lookup_cons, bytesCompare_self]

theorem lookup_nodePut_ne {α : Type} (k k1 : String) (v1 : α) (l : List (String × α))
    (hne : k ≠ k1) : lookup k (nodePut k1 v1 l) = lookup k l := by
  induction l with
  | nil => simp [nodePut, lookup_cons, lookup_nil, hne]
  | cons e es ih =>
    unfold nodePut
    by_cases h1 : bytesCompare e.1 k1 = .lt
    · simp only [h1, if_true, lookup_cons, ih]
    · by_cases h2 : e.1 = k1
      · have h1b : ¬ bytesCompare k1 k1 = .lt := bytesCompare_self k1
        simp only [h2, h1b, if_false, if_true, lookup_cons, hne]
      · simp only [h1, h2, if_false, lookup_cons, hne]
        by_cases h3 : bytesCompare k1 k = .lt
        · simp [h3]
        · simp only [h3, if_false]
          have h4 : bytesCompare k k1 = .lt := bytesCompare_swap k1 k h3 (Ne.symm hne)
          have h5 : bytesCompare k1 e.1 = .lt := bytesCompare_swap e.1 k1 h1 h2
          have h6 : bytesCompare k e.1 = .lt := bytesCompare_trans k k1 e.1 h4 h5
          have h7 : bytesCompare e.1 k ≠ .lt := bytesCompare_asymm k e.1 h6
          have h8 : k ≠ e.1 := bytesCompare_ne k e.1 h6
          simp [h7, h8]

theorem nodePut_of_lookup {α : Type} (k : String) (v : α) (l : List (String × α))
    (h : lookup k l = some v) : nodePut k v l = l := by
  induction l with
  | nil => simp [lookup_nil] at h
  | cons e es ih =>
    rw [lookup_cons] at h
    unfold nodePut
    by_cases h1 : bytesCompare e.1 k = .lt
    · simp only [h1, if_true] at h
      simp [h1, ih h]
    · simp only [h1, if_false] at h
      by_cases h2 : k = e.1
      · simp only [h2, if_true, Option.some.injEq] at h
        subst h
        subst h2
        simp [h1]
      · simp [h2] at h

theorem nodePut_nodePut {α : Type} (k : String) (v v1 : α) (l : List (String × α)) :
    nodePut k v (nodePut k v1 l) = nodePut k v l := by
  induction l with
  | nil => simp [nodePut, bytesCompare_self]
  | cons e es ih =>
    by_cases h1 : bytesCompare e.1 k = .lt
    · simp [nodePut, h1, ih]
    · by_cases h2 : e.1 = k
      · simp [nodePut, h1, h2, bytesCompare_self]
      · simp [nodePut, h1, h2, bytesCompare_self]

theorem filter_nodePut {α : Type} (p : String → Bool) (k : String) (v : α)
    (l : List (String × α)) (hp : p k = false) :
    (nodePut k v l).filter (fun e => p e.1) = l.filter (fun e => p e.1) := by
  induction l with
  | nil => simp [nodePut, hp]
  | cons e es ih =>
    unfold nodePut
    by_cases h1 : bytesCompare e.1 k = .lt
    · simp only [h1, if_true, List.filter_cons, ih]
    · by_cases h2 : e.1 = k
      · have h1b : ¬ bytesCompare k k = .lt := bytesCompare_self k
        simp [h2, h1b, List.filter_cons, hp]
      · simp [h1, h2, List.filter_cons, hp]

theorem seek_of_lookup {α : Type} (k : String) (v : α) (l : List (String × α))
    (h : lookup k l = some v) : seek k l = some (k, v) := by
  unfold lookup at h
  cases hs : seek k l with
  | none => simp [hs] at h
  | some p =>
    obtain ⟨k1, v1⟩ := p
    simp only [hs] at h
    by_cases hk : k = k1
    · simp only [hk, if_true, Option.some.injEq] at h
      rw [hk, h]
    · simp [hk] at h

/-! ## The store operations -/

theorem BucketPut_eq (b b1 : Bucket) (k v : String) (h : Bucket.Put b k v = .ok b1) :
    b1 = nodePut k (.bytes v) b := by
  unfold Bucket.Put at h
  split at h
  · cases h
  · split at h
    · cases h
    · split at h
      · cases h
      · split at h
        · split at h
          · cases h
          · cases h; rfl
        · cases h; rfl

theorem BucketPut_ok (b : Bucket) (k v : String) (h0 : k.utf8ByteSize ≠ 0)
    (h1 : ¬ k.utf8ByteSize > MaxKeySize) (h2 : ¬ v.utf8ByteSize > MaxValueSize)
    (h3 : lookup k b ≠ some .bucket) :
    Bucket.Put b k v = .ok (nodePut k (.bytes v) b) := by
  unfold Bucket.Put
  simp only [h0, h1, h2, if_false]
  split
  · rename_i k1 hs
    by_cases hk : k = k1
    · exfalso
      apply h3
      subst hk
      unfold lookup
      simp [hs]
    · simp [hk]
  · rfl

theorem HandlePut_eq (tx tx1 : DB) (n k v : String) (b : Bucket)
    (hb : Tx.Bucket tx n = some b) (h : Handle.Put tx n k v = .ok tx1) :
    tx1 = nodePut n (nodePut k (.bytes v) b) tx := by
  unfold Handle.Put at h
  simp only [hb] at h
  cases hp : Bucket.Put b k v with
  | error e => simp [hp] at h
  | ok b1 =>
    simp only [hp, Except.ok.injEq] at h
    rw [← h, BucketPut_eq b b1 k v hp]

theorem HandlePut_ok (tx : DB) (n k v : String) (b : Bucket)
    (hb : Tx.Bucket tx n = some b) (h0 : k.utf8ByteSize ≠ 0)
    (h1 : ¬ k.utf8ByteSize > MaxKeySize) (h2 : ¬ v.utf8ByteSize > MaxValueSize)
    (h3 : lookup k b ≠ some .bucket) :
    Handle.Put tx n k v = .ok (nodePut n (nodePut k (.bytes v) b) tx) := by
  unfold Handle.Put
  simp only [hb, BucketPut_ok b k v h0 h1 h2 h3]

theorem CreateBucketIfNotExists_eq (tx tx1 : DB) (n : String)
    (h : CreateBucketIfNotExists tx n = .ok tx1) :
    tx1 = nodePut n ((Tx.Bucket tx n).getD []) tx := by
  unfold CreateBucketIfNotExists at h
  split at h
  · cases h
  · cases hb : Tx.Bucket tx n with
    | none =>
      simp only [hb, Except.ok.injEq] at h
      simp [← h]
    | some b =>
      simp only [hb, Except.ok.injEq] at h
      rw [← h]
      simp only [Option.getD_some]
      exact (nodePut_of_lookup n b tx hb).symm

theorem CreateBucketIfNotExists_ok (tx : DB) (n : String) (h0 : n.utf8ByteSize ≠ 0) :
    CreateBucketIfNotExists tx n = .ok (nodePut n ((Tx.Bucket tx n).getD []) tx) := by
  cases h : CreateBucketIfNotExists tx n with
  | error e =>
    unfold CreateBucketIfNotExists at h
    simp only [h0, if_false] at h
    split at h <;> cases h
  | ok tx1 => rw [CreateBucketIfNotExists_eq tx tx1 n h]

theorem Bucket_nodePut_self (tx : DB) (n : String) (b : TuiGo.Bucket) :
    Tx.Bucket (nodePut n b tx) n = some b :=
  lookup_nodePut_self n b tx

theorem Bucket_nodePut_ne (tx : DB) (n n1 : String) (b : TuiGo.Bucket) (h : n ≠ n1) :
    Tx.Bucket (nodePut n1 b tx) n = Tx.Bucket tx n :=
  lookup_nodePut_ne n n1 b tx h

theorem putWorker_1 (tx : DB) :
    putWorker tx 1 = Handle.Put tx "workers" "w1" "1,Worker 1,Type A" := rfl

theorem putWorker_2 (tx : DB) :
    putWorker tx 2 = Handle.Put tx "workers" "w2" "2,Worker 2,Type B" := rfl

theorem putWorker_3 (tx : DB) :
    putWorker tx 3 = Handle.Put tx "workers" "w3" "3,Worker 3,Type C" := rfl

theorem putDevice_1 (tx : DB) :
    putDevice tx 1 = Handle.Put tx "devices" "d1" "1,Host 1,Device 1" := rfl

theorem putDevice_2 (tx : DB) :
    putDevice tx 2 = Handle.Put tx "devices" "d2" "2,Host 2,Device 2" := rfl

theorem putDevice_3 (tx : DB) :
    putDevice tx 3 = Handle.Put tx "devices" "d3" "3,Host 3,Device 3" := rfl

theorem three_puts_eq (tx t1 t2 t3 : DB) (n k1 v1 k2 v2 k3 v3 : String) (b : Bucket)
    (hb : Tx.Bucket tx n = some b)
    (e1 : Handle.Put tx n k1 v1 = .ok t1) (e2 : Handle.Put t1 n k2 v2 = .ok t2)
    (e3 : Handle.Put t2 n k3 v3 = .ok t3) :
    t3 = nodePut n (nodePut k3 (.bytes v3) (nodePut k2 (.bytes v2)
      (nodePut k1 (.bytes v1) b))) tx := by
  have a1 := HandlePut_eq tx t1 n k1 v1 b hb e1
  have b1 : Tx.Bucket t1 n = some (nodePut k1 (.bytes v1) b) := by
    rw [a1]; exact Bucket_nodePut_self _ _ _
  have a2 := HandlePut_eq t1 t2 n k2 v2 _ b1 e2
  have b2 : Tx.Bucket t2 n = some (nodePut k2 (.bytes v2) (nodePut k1 (.bytes v1) b)) := by
    rw [a2]; exact Bucket_nodePut_self _ _ _
  have a3 := HandlePut_eq t2 t3 n k3 v3 _ b2 e3
  rw [a3, a2, a1, nodePut_nodePut, nodePut_nodePut]

theorem forLoop_putWorker_eq (tx tx2 : DB) (b : Bucket)
    (hb : Tx.Bucket tx "workers" = some b)
    (h : forLoop putWorker [1, 2, 3] tx = .ok tx2) :
    tx2 = nodePut "workers" (seedWorkers b) tx := by
  simp only [forLoop] at h
  cases e1 : putWorker tx 1 with
  | error e => simp [e1] at h
  | ok t1 =>
    simp only [e1] at h
    cases e2 : putWorker t1 2 with
    | error e => simp [e2] at h
    | ok t2 =>
      simp only [e2] at h
      cases e3 : putWorker t2 3 with
      | error e => simp [e3] at h
      | ok t3 =>
        simp only [e3, Except.ok.injEq] at h
        subst h
        rw [putWorker_1] at e1
        rw [putWorker_2] at e2
        rw [putWorker_3] at e3
        exact three_puts_eq tx t1 t2 t3 _ _ _ _ _ _ _ b hb e1 e2 e3

theorem forLoop_putDevice_eq (tx tx2 : DB) (b : Bucket)
    (hb : Tx.Bucket tx "devices" = some b)
    (h : forLoop putDevice [1, 2, 3] tx = .ok tx2) :
    tx2 = nodePut "devices" (seedDevices b) tx := by
  simp only [forLoop] at h
  cases e1 : putDevice tx 1 with
  | error e => simp [e1] at h
  | ok t1 =>
    simp only [e1] at h
    cases e2 : putDevice t1 2 with
    | error e => simp [e2] at h
    | ok t2 =>
      simp only [e2] at h
      cases e3 : putDevice t2 3 with
      | error e => simp [e3] at h
      | ok t3 =>
        simp only [e3, Except.ok.injEq] at h
        subst h
        rw [putDevice_1] at e1
        rw [putDevice_2] at e2
        rw [putDevice_3] at e3
        exact three_puts_eq tx t1 t2 t3 _ _ _ _ _ _ _ b hb e1 e2 e3

theorem three_puts_ok (tx : DB) (n k1 v1 k2 v2 k3 v3 : String) (b : Bucket)
    (hb : Tx.Bucket tx n = some b)
    (s1 : k1.utf8ByteSize ≠ 0 ∧ ¬ k1.utf8ByteSize > MaxKeySize ∧
      ¬ v1.utf8ByteSize > MaxValueSize)
    (s2 : k2.utf8ByteSize ≠ 0 ∧ ¬ k2.utf8ByteSize > MaxKeySize ∧
      ¬ v2.utf8ByteSize > MaxValueSize)
    (s3 : k3.utf8ByteSize ≠ 0 ∧ ¬ k3.utf8ByteSize > MaxKeySize ∧
      ¬ v3.utf8ByteSize > MaxValueSize)
    (h21 : k2 ≠ k1) (h31 : k3 ≠ k1) (h32 : k3 ≠ k2)
    (n1 : lookup k1 b ≠ some .bucket) (n2 : lookup k2 b ≠ some .bucket)
    (n3 : lookup k3 b ≠ some .bucket) :
    ∃ t1 t2, Handle.Put tx n k1 v1 = .ok t1 ∧ Handle.Put t1 n k2 v2 = .ok t2 ∧
      Handle.Put t2 n k3 v3 = .ok (nodePut n (nodePut k3 (.bytes v3)
        (nodePut k2 (.bytes v2) (nodePut k1 (.bytes v1) b))) tx) := by
  have e1 := HandlePut_ok tx n k1 v1 b hb s1.1 s1.2.1 s1.2.2 n1
  have b1 : Tx.Bucket (nodePut n (nodePut k1 (.bytes v1) b) tx) n
      = some (nodePut k1 (.bytes v1) b) := Bucket_nodePut_self _ _ _
  have m2 : lookup k2 (nodePut k1 (.bytes v1) b) ≠ some .bucket := by
    rw [lookup_nodePut_ne k2 k1 _ b h21]; exact n2
  have e2 := HandlePut_ok _ n k2 v2 _ b1 s2.1 s2.2.1 s2.2.2 m2
  rw [nodePut_nodePut] at e2
  have b2 : Tx.Bucket (nodePut n (nodePut k2 (.bytes v2) (nodePut k1 (.bytes v1) b)) tx) n
      = some (nodePut k2 (.bytes v2) (nodePut k1 (.bytes v1) b)) :=
    Bucket_nodePut_self _ _ _
  have m3 : lookup k3 (nodePut k2 (.bytes v2) (nodePut k1 (.bytes v1) b))
      ≠ some .bucket := by
    rw [lookup_nodePut_ne k3 k2 _ _ h32, lookup_nodePut_ne k3 k1 _ b h31]; exact n3
  have e3 := HandlePut_ok _ n k3 v3 _ b2 s3.1 s3.2.1 s3.2.2 m3
  rw [nodePut_nodePut] at e3
  exact ⟨_, _, e1, e2, e3⟩

theorem forLoop_putWorker_ok (tx : DB) (b : Bucket)
    (hb : Tx.Bucket tx "workers" = some b) (hn : noNested ["w1", "w2", "w3"] b) :
    forLoop putWorker [1, 2, 3] tx = .ok (nodePut "workers" (seedWorkers b) tx) := by
  obtain ⟨t1, t2, e1, e2, e3⟩ := three_puts_ok tx "workers"
    "w1" "1,Worker 1,Type A" "w2" "2,Worker 2,Type B" "w3" "3,Worker 3,Type C" b hb
    (by decide) (by decide) (by decide) (by decide) (by decide) (by decide)
    (hn "w1" (by simp)) (hn "w2" (by simp)) (hn "w3" (by simp))
  simp only [forLoop, putWorker_1, putWorker_2, putWorker_3, e1, e2, e3]
  rfl

theorem forLoop_putDevice_ok (tx : DB) (b : Bucket)
    (hb : Tx.Bucket tx "devices" = some b) (hn : noNested ["d1", "d2", "d3"] b) :
    forLoop putDevice [1, 2, 3] tx = .ok (nodePut "devices" (seedDevices b) tx) := by
  obtain ⟨t1, t2, e1, e2, e3⟩ := three_puts_ok tx "devices"
    "d1" "1,Host 1,Device 1" "d2" "2,Host 2,Device 2" "d3" "3,Host 3,Device 3" b hb
    (by decide) (by decide) (by decide) (by decide) (by decide) (by decide)
    (hn "d1" (by simp)) (hn "d2" (by simp)) (hn "d3" (by simp))
  simp only [forLoop, putDevice_1, putDevice_2, putDevice_3, e1, e2, e3]
  rfl

/-- A successful run of the transaction function leaves the store `seeded`. -/
theorem initDataTx_eq (db db1 : DB) (h : initDataTx db = .ok db1) : db1 = seeded db := by
  unfold initDataTx at h
  cases c1 : CreateBucketIfNotExists db "workers" with
  | error e => simp [c1] at h
  | ok tx1 =>
    simp only [c1] at h
    have a1 := CreateBucketIfNotExists_eq db tx1 _ c1
    cases l1 : forLoop putWorker [1, 2, 3] tx1 with
    | error e => simp [l1] at h
    | ok tx2 =>
      simp only [l1] at h
      have b1 : Tx.Bucket tx1 "workers" = some ((Tx.Bucket db "workers").getD []) := by
        rw [a1]; exact Bucket_nodePut_self _ _ _
      have a2 := forLoop_putWorker_eq tx1 tx2 _ b1 l1
      cases c2 : CreateBucketIfNotExists tx2 "devices" with
      | error e => simp [c2] at h
      | ok tx3 =>
        simp only [c2] at h
        have a3 := CreateBucketIfNotExists_eq tx2 tx3 _ c2
        have b3 : Tx.Bucket tx3 "devices" = some ((Tx.Bucket tx2 "devices").getD []) := by
          rw [a3]; exact Bucket_nodePut_self _ _ _
        have a4 := forLoop_putDevice_eq tx3 db1 _ b3 h
        have d2 : Tx.Bucket tx2 "devices" = Tx.Bucket db "devices" := by
          rw [a2, a1, Bucket_nodePut_ne _ _ _ _ (by decide),
            Bucket_nodePut_ne _ _ _ _ (by decide)]
        rw [a4, a3, nodePut_nodePut, d2, a2, a1, nodePut_nodePut]
        rfl

/-- The transaction function succeeds when none of the six seeded keys holds
a nested bucket. -/
theorem initDataTx_ok (db : DB)
    (hw : noNested ["w1", "w2", "w3"] ((Tx.Bucket db "workers").getD []))
    (hd : noNested ["d1", "d2", "d3"] ((Tx.Bucket db "devices").getD [])) :
    initDataTx db = .ok (seeded db) := by
  unfold initDataTx
  rw [CreateBucketIfNotExists_ok db "workers" (by decide)]
  simp only []
  rw [forLoop_putWorker_ok _ _ (Bucket_nodePut_self _ _ _) hw]
  simp only []
  rw [CreateBucketIfNotExists_ok _ "devices" (by decide)]
  simp only []
  have d2 : Tx.Bucket (nodePut "workers" (seedWorkers ((Tx.Bucket db "workers").getD []))
      (nodePut "workers" ((Tx.Bucket db "workers").getD []) db)) "devices"
      = Tx.Bucket db "devices" := by
    rw [Bucket_nodePut_ne _ _ _ _ (by decide), Bucket_nodePut_ne _ _ _ _ (by decide)]
  rw [d2, forLoop_putDevice_ok _ _ (Bucket_nodePut_self _ _ _) hd]
  rw [nodePut_nodePut, nodePut_nodePut]
  rfl

/-! ## Sorted stores -/

theorem lookup_of_mem {α : Type} (k : String) (v : α) (l : List (String × α))
    (hs : Sorted l) (hm : (k, v) ∈ l) : lookup k l = some v := by
  induction l with
  | nil => simp at hm
  | cons e es ih =>
    unfold Sorted at hs
    rw [List.pairwise_cons] at hs
    rw [lookup_cons]
    rcases List.mem_cons.mp hm with h | h
    · subst h
      simp [bytesCompare_self]
    · have hlt : bytesCompare e.1 k = .lt := hs.1 (k, v) h
      simp only [hlt, if_true]
      exact ih hs.2 h

theorem lookup_none_of_forall {α : Type} (k : String) (l : List (String × α))
    (h : ∀ e ∈ l, e.1 ≠ k) : lookup k l = none := by
  induction l with
  | nil => rfl
  | cons e es ih =>
    rw [lookup_cons]
    have h1 : k ≠ e.1 := fun x => h e (List.mem_cons_self _ _) x.symm
    have h2 := ih (fun x hx => h x (List.mem_cons_of_mem _ hx))
    simp [h1, h2]

theorem ForEach_append {α : Type} (f : String → α) (b : Bucket) (acc : List α) :
    ForEach (fun _ v data => .ok (data ++ [f v])) b acc
      = .ok (acc ++ b.map (fun e => f e.2.toBytes)) := by
  induction b generalizing acc with
  | nil => simp [ForEach]
  | cons e es ih =>
    simp only [ForEach]
    rw [ih]
    simp

theorem fetchWorkers_of_bucket (db : DB) (b : Bucket) (h : Tx.Bucket db "workers" = some b) :
    fetchWorkers db = .ok (b.map (fun e => decodeWorker e.2.toBytes)) := by
  unfold fetchWorkers View
  simp only [h]
  rw [ForEach_append decodeWorker b []]
  simp

theorem fetchDevices_of_bucket (db : DB) (b : Bucket) (h : Tx.Bucket db "devices" = some b) :
    fetchDevices db = .ok (b.map (fun e => decodeDevice e.2.toBytes)) := by
  unfold fetchDevices View
  simp only [h]
  rw [ForEach_append decodeDevice b []]
  simp

theorem fetchWorkers_of_none (db : DB) (h : Tx.Bucket db "workers" = none) :
    fetchWorkers db = .error "bucket not found" := by
  unfold fetchWorkers View
  simp only [h]

theorem fetchDevices_of_none (db : DB) (h : Tx.Bucket db "devices" = none) :
    fetchDevices db = .error "bucket not found" := by
  unfold fetchDevices View
  simp only [h]

theorem mem_nodePut {α : Type} (k : String) (v : α) (l : List (String × α))
    (x : String × α) (h : x ∈ nodePut k v l) : x = (k, v) ∨ x ∈ l := by
  induction l with
  | nil => simpa [nodePut] using h
  | cons e es ih =>
    unfold nodePut at h
    by_cases h1 : bytesCompare e.1 k = .lt
    · simp only [h1, if_true, List.mem_cons] at h
      rcases h with h | h
      · right; rw [h]; exact List.mem_cons_self _ _
      · rcases ih h with h2 | h2
        · left; exact h2
        · right; exact List.mem_cons_of_mem _ h2
    · by_cases h2 : e.1 = k
      · have h1b : ¬ bytesCompare k k = .lt := bytesCompare_self k
        simp only [h2, h1b, if_false, if_true, List.mem_cons] at h
        rcases h with h | h
        · left; exact h
        · right; exact List.mem_cons_of_mem _ h
      · simp only [h1, h2, if_false, List.mem_cons] at h
        rcases h with h | h | h
        · left; exact h
        · right; rw [h]; exact List.mem_cons_self _ _
        · right; exact List.mem_cons_of_mem _ h

/-- `node.put` keeps the elements in ascending key order. -/
theorem nodePut_sorted {α : Type} (k : String) (v : α) (l : List (String × α))
    (hs : Sorted l) : Sorted (nodePut k v l) := by
  induction l with
  | nil => simp [nodePut, Sorted]
  | cons e es ih =>
    unfold Sorted at hs
    rw [List.pairwise_cons] at hs
    unfold nodePut
    by_cases h1 : bytesCompare e.1 k = .lt
    · simp only [h1, if_true]
      unfold Sorted
      rw [List.pairwise_cons]
      refine ⟨?_, ih hs.2⟩
      intro x hx
      rcases mem_nodePut k v es x hx with h | h
      · rw [h]; exact h1
      · exact hs.1 x h
    · by_cases h2 : e.1 = k
      · have h1b : ¬ bytesCompare k k = .lt := bytesCompare_self k
        simp only [h2, h1b, if_false, if_true]
        unfold Sorted
        rw [List.pairwise_cons]
        refine ⟨?_, hs.2⟩
        intro x hx
        rw [← h2]
        exact hs.1 x hx
      · simp only [h1, h2, if_false]
        have h3 : bytesCompare k e.1 = .lt := bytesCompare_swap e.1 k h1 h2
        unfold Sorted
        rw [List.pairwise_cons, List.pairwise_cons]
        refine ⟨?_, hs.1, hs.2⟩
        intro x hx
        rcases List.mem_cons.mp hx with h | h
        · rw [h]; exact h3
        · exact bytesCompare_trans _ _ _ h3 (hs.1 x h)

theorem mem_of_lookup {α : Type} (k : String) (v : α) (l : List (String × α))
    (h : lookup k l = some v) : (k, v) ∈ l := by
  induction l with
  | nil => simp [lookup_nil] at h
  | cons e es ih =>
    rw [lookup_cons] at h
    by_cases h1 : bytesCompare e.1 k = .lt
    · simp only [h1, if_true] at h
      exact List.mem_cons_of_mem _ (ih h)
    · simp only [h1, if_false] at h
      by_cases h2 : k = e.1
      · simp only [h2, if_true, Option.some.injEq] at h
        rw [h2, ← h]
        exact List.mem_cons_self _ _
      · simp [h2] at h

/-- The seeder keeps the store well formed. -/
theorem seeded_wellFormed (db : DB) (h : WellFormed db) : WellFormed (seeded db) := by
  have hb : ∀ n, Sorted ((Tx.Bucket db n).getD []) := by
    intro n
    cases hn : Tx.Bucket db n with
    | none => simp [Sorted]
    | some b => exact h.2 _ (mem_of_lookup n b db hn)
  have hw : Sorted (seedWorkers ((Tx.Bucket db "workers").getD [])) :=
    nodePut_sorted _ _ _ (nodePut_sorted _ _ _ (nodePut_sorted _ _ _ (hb _)))
  have hd : Sorted (seedDevices ((Tx.Bucket db "devices").getD [])) :=
    nodePut_sorted _ _ _ (nodePut_sorted _ _ _ (nodePut_sorted _ _ _ (hb _)))
  unfold seeded
  refine ⟨nodePut_sorted _ _ _ (nodePut_sorted _ _ _ h.1), ?_⟩
  intro e he
  rcases mem_nodePut _ _ _ e he with h1 | h1
  · rw [h1]; exact hd
  · rcases mem_nodePut _ _ _ e h1 with h2 | h2
    · rw [h2]; exact hw
    · exact h.2 e h2

/-! ## The claims about the seeder and the accessors -/

/-- C1: the round trip from the seeder to the accessors fails. For each i of
1, 2, 3 the value `initData` writes is "i,Worker i,Type X" (respectively
"i,Host i,Device i"), and the callback of `fetchWorkers` (`fetchDevices`)
decodes it to (i, "Worker", "") (respectively (i, "Host", "")), which is not the
record it was built from. -/
theorem C1_roundtrip_fails :
    (newWorker 1 = ⟨1, "Worker 1", "Type A"⟩ ∧
      encodeWorker (newWorker 1) = "1,Worker 1,Type A" ∧
      decodeWorker (encodeWorker (newWorker 1)) = ⟨1, "Worker", ""⟩) ∧
    (newWorker 2 = ⟨2, "Worker 2", "Type B"⟩ ∧
      decodeWorker (encodeWorker (newWorker 2)) = ⟨2, "Worker", ""⟩) ∧
    (newWorker 3 = ⟨3, "Worker 3", "Type C"⟩ ∧
      decodeWorker (encodeWorker (newWorker 3)) = ⟨3, "Worker", ""⟩) ∧
    (newDevice 1 = ⟨1, "Host 1", "Device 1"⟩ ∧
      encodeDevice (newDevice 1) = "1,Host 1,Device 1" ∧
      decodeDevice (encodeDevice (newDevice 1)) = ⟨1, "Host", ""⟩) ∧
    (newDevice 2 = ⟨2, "Host 2", "Device 2"⟩ ∧
      decodeDevice (encodeDevice (newDevice 2)) = ⟨2, "Host", ""⟩) ∧
    (newDevice 3 = ⟨3, "Host 3", "Device 3"⟩ ∧
      decodeDevice (encodeDevice (newDevice 3)) = ⟨3, "Host", ""⟩) := by
  decide

/-- C2: on the fresh (empty) store `initData` returns, and afterwards the store
holds exactly the bucket "workers" with the keys "w1", "w2", "w3" and the values
"1,Worker 1,Type A", "2,Worker 2,Type B", "3,Worker 3,Type C", and the bucket
"devices" with the keys "d1", "d2", "d3" and the values "i,Host i,Device i";
these values are the comma-joined records of the two loops. -/
theorem C2_seed_fresh_store :
    initData [] = .ok
      [("devices", [("d1", .bytes "1,Host 1,Device 1"), ("d2", .bytes "2,Host 2,Device 2"),
          ("d3", .bytes "3,Host 3,Device 3")]),
       ("workers", [("w1", .bytes "1,Worker 1,Type A"), ("w2", .bytes "2,Worker 2,Type B"),
          ("w3", .bytes "3,Worker 3,Type C")])] ∧
    [encodeWorker (newWorker 1), encodeWorker (newWorker 2), encodeWorker (newWorker 3)]
      = ["1,Worker 1,Type A", "2,Worker 2,Type B", "3,Worker 3,Type C"] ∧
    [encodeDevice (newDevice 1), encodeDevice (newDevice 2), encodeDevice (newDevice 3)]
      = ["1,Host 1,Device 1", "2,Host 2,Device 2", "3,Host 3,Device 3"] :=
  ⟨rfl, by decide, by decide⟩

/-- C3: in a store with no top-level bucket named "workers" (respectively
"devices"), `fetchWorkers` (`fetchDevices`) ends with the error "bucket not
found" and so does not return the empty sequence; in a store that has the
bucket it returns a sequence. -/
theorem C3_missing_namespace (db : DB) (hwf : WellFormed db) :
    ((∀ e ∈ db, e.1 ≠ "workers") →
      fetchWorkers db = .error "bucket not found" ∧ fetchWorkers db ≠ .ok []) ∧
    ((∃ e ∈ db, e.1 = "workers") → ∃ l, fetchWorkers db = .ok l) ∧
    ((∀ e ∈ db, e.1 ≠ "devices") →
      fetchDevices db = .error "bucket not found" ∧ fetchDevices db ≠ .ok []) ∧
    ((∃ e ∈ db, e.1 = "devices") → ∃ l, fetchDevices db = .ok l) := by
  refine ⟨?_, ?_, ?_, ?_⟩
  · intro h
    have := fetchWorkers_of_none db (lookup_none_of_forall _ db h)
    simp [this]
  · rintro ⟨⟨n, b⟩, hm, hn⟩
    simp only at hn
    subst hn
    exact ⟨_, fetchWorkers_of_bucket db b (lookup_of_mem _ b db hwf.1 hm)⟩
  · intro h
    have := fetchDevices_of_none db (lookup_none_of_forall _ db h)
    simp [this]
  · rintro ⟨⟨n, b⟩, hm, hn⟩
    simp only at hn
    subst hn
    exact ⟨_, fetchDevices_of_bucket db b (lookup_of_mem _ b db hwf.1 hm)⟩

/-- Witness of C3: a store with a bucket "workers" and no bucket "devices". -/
theorem C3_missing_namespace_witness :
    WellFormed [("workers", [("w1", .bytes "x")])] ∧
    fetchDevices [("workers", [("w1", .bytes "x")])] = .error "bucket not found" ∧
    ∃ l, fetchWorkers [("workers", [("w1", .bytes "x")])] = .ok l :=
  ⟨by decide,
   ((C3_missing_namespace [("workers", [("w1", .bytes "x")])] (by decide)).2.2.1
      (by decide)).1,
   (C3_missing_namespace [("workers", [("w1", .bytes "x")])] (by decide)).2.1
      ⟨_, List.mem_cons_self _ _, rfl⟩⟩

/-- C7: in a store that has the bucket "workers" (respectively "devices") with
elements `b`, whatever their values, `fetchWorkers` (`fetchDevices`) returns
without error one record per element, the k-th record being the decode of the
k-th value, and the elements are in ascending key order. -/
theorem C7_fetch_all_in_order (db : DB) (hwf : WellFormed db) :
    (∀ b, ("workers", b) ∈ db →
      fetchWorkers db = .ok (b.map (fun e => decodeWorker e.2.toBytes)) ∧
      (b.map (fun e => decodeWorker e.2.toBytes)).length = b.length ∧ Sorted b) ∧
    (∀ b, ("devices", b) ∈ db →
      fetchDevices db = .ok (b.map (fun e => decodeDevice e.2.toBytes)) ∧
      (b.map (fun e => decodeDevice e.2.toBytes)).length = b.length ∧ Sorted b) := by
  constructor
  · intro b hm
    exact ⟨fetchWorkers_of_bucket db b (lookup_of_mem _ b db hwf.1 hm), by simp,
      hwf.2 _ hm⟩
  · intro b hm
    exact ⟨fetchDevices_of_bucket db b (lookup_of_mem _ b db hwf.1 hm), by simp,
      hwf.2 _ hm⟩

/-- Witness of C7: a bucket "workers" with a well-formed value, a value with a
non-numeric ID and a value with one field. -/
theorem C7_fetch_all_in_order_witness :
    WellFormed [("workers", [("w1", .bytes "7,ab,cd"), ("w2", .bytes "x,y"),
      ("w9", .bytes "12")])] ∧
    fetchWorkers [("workers", [("w1", .bytes "7,ab,cd"), ("w2", .bytes "x,y"),
      ("w9", .bytes "12")])] = .ok [⟨7, "ab,cd", ""⟩, ⟨0, "", ""⟩, ⟨12, "", ""⟩] :=
  ⟨by decide,
   ((C7_fetch_all_in_order [("workers", [("w1", .bytes "7,ab,cd"), ("w2", .bytes "x,y"),
      ("w9", .bytes "12")])] (by decide)).1 _ (List.mem_cons_self _ _)).1⟩

/-- C10: for every stored value the record decoded with "%d,%s,%s" has an empty
third field: `Type` of the worker and `Name` of the device are "". The scan
ends with an error after at most two assignments. -/
theorem C10_third_field_empty (v : String) :
    (decodeWorker v).Type_ = "" ∧ (decodeDevice v).Name = "" ∧
    (scanWorker v).err ≠ none ∧ (scanWorker v).n ≤ 2 ∧
    (scanDevice v).err ≠ none ∧ (scanDevice v).n ≤ 2 := by
  obtain ⟨w1, w2, w3⟩ := doScanf_recordFormat
    (fun x (w : Worker) => { w with ID := x })
    (fun x w => { w with Name := x }) (fun x w => { w with Type_ := x })
    { rs := v.data.take hugeWid, buf := [] } { ID := 0, Name := "", Type_ := "" }
  obtain ⟨d1, d2, d3⟩ := doScanf_recordFormat
    (fun x (d : Device) => { d with ID := x })
    (fun x d => { d with Host := x }) (fun x d => { d with Name := x })
    { rs := v.data.take hugeWid, buf := [] } { ID := 0, Host := "", Name := "" }
  refine ⟨?_, ?_, w1, w2, d1, d2⟩
  · unfold decodeWorker scanWorker Sscanf
    rcases w3 with h | ⟨i, h⟩ | ⟨i, str, h⟩ <;> rw [h]
  · unfold decodeDevice scanDevice Sscanf
    rcases d3 with h | ⟨i, h⟩ | ⟨i, str, h⟩ <;> rw [h]

/-! ## Idempotence and frame of the seeder -/

theorem storeAfterInitData_ok (db db1 : DB) (h : initDataTx db = .ok db1) :
    storeAfterInitData db = db1 ∧ initData db = .ok db1 := by
  unfold storeAfterInitData initData Update
  simp [h]

theorem storeAfterInitData_error (db : DB) (e : String) (h : initDataTx db = .error e) :
    storeAfterInitData db = db ∧ initData db = .error e := by
  unfold storeAfterInitData initData Update
  simp [h]

theorem seedWorkers_lookup (b : Bucket) :
    lookup "w1" (seedWorkers b) = some (.bytes "1,Worker 1,Type A") ∧
    lookup "w2" (seedWorkers b) = some (.bytes "2,Worker 2,Type B") ∧
    lookup "w3" (seedWorkers b) = some (.bytes "3,Worker 3,Type C") := by
  unfold seedWorkers
  refine ⟨?_, ?_, ?_⟩
  · rw [lookup_nodePut_ne _ _ _ _ (by decide), lookup_nodePut_ne _ _ _ _ (by decide),
      lookup_nodePut_self]
  · rw [lookup_nodePut_ne _ _ _ _ (by decide), lookup_nodePut_self]
  · rw [lookup_nodePut_self]

theorem seedDevices_lookup (b : Bucket) :
    lookup "d1" (seedDevices b) = some (.bytes "1,Host 1,Device 1") ∧
    lookup "d2" (seedDevices b) = some (.bytes "2,Host 2,Device 2") ∧
    lookup "d3" (seedDevices b) = some (.bytes "3,Host 3,Device 3") := by
  unfold seedDevices
  refine ⟨?_, ?_, ?_⟩
  · rw [lookup_nodePut_ne _ _ _ _ (by decide), lookup_nodePut_ne _ _ _ _ (by decide),
      lookup_nodePut_self]
  · rw [lookup_nodePut_ne _ _ _ _ (by decide), lookup_nodePut_self]
  · rw [lookup_nodePut_self]

theorem seedWorkers_of_lookup (c : Bucket)
    (h1 : lookup "w1" c = some (.bytes "1,Worker 1,Type A"))
    (h2 : lookup "w2" c = some (.bytes "2,Worker 2,Type B"))
    (h3 : lookup "w3" c = some (.bytes "3,Worker 3,Type C")) : seedWorkers c = c := by
  unfold seedWorkers
  rw [nodePut_of_lookup _ _ _ h1, nodePut_of_lookup _ _ _ h2, nodePut_of_lookup _ _ _ h3]

theorem seedDevices_of_lookup (c : Bucket)
    (h1 : lookup "d1" c = some (.bytes "1,Host 1,Device 1"))
    (h2 : lookup "d2" c = some (.bytes "2,Host 2,Device 2"))
    (h3 : lookup "d3" c = some (.bytes "3,Host 3,Device 3")) : seedDevices c = c := by
  unfold seedDevices
  rw [nodePut_of_lookup _ _ _ h1, nodePut_of_lookup _ _ _ h2, nodePut_of_lookup _ _ _ h3]

theorem seedWorkers_fixed (b : Bucket) : seedWorkers (seedWorkers b) = seedWorkers b := by
  obtain ⟨h1, h2, h3⟩ := seedWorkers_lookup b
  exact seedWorkers_of_lookup _ h1 h2 h3

theorem seedDevices_fixed (b : Bucket) : seedDevices (seedDevices b) = seedDevices b := by
  obtain ⟨h1, h2, h3⟩ := seedDevices_lookup b
  exact seedDevices_of_lookup _ h1 h2 h3

theorem seeded_of_buckets (d : DB) (wb dv : Bucket)
    (hw : Tx.Bucket d "workers" = some wb) (hd : Tx.Bucket d "devices" = some dv)
    (fw : seedWorkers wb = wb) (fd : seedDevices dv = dv) : seeded d = d := by
  unfold seeded
  rw [hw, hd]
  simp only [Option.getD_some]
  rw [fw, fd, nodePut_of_lookup _ _ _ hw, nodePut_of_lookup _ _ _ hd]

theorem seeded_workers (db : DB) :
    Tx.Bucket (seeded db) "workers"
      = some (seedWorkers ((Tx.Bucket db "workers").getD [])) := by
  unfold seeded
  rw [Bucket_nodePut_ne _ _ _ _ (by decide), Bucket_nodePut_self]

theorem seeded_devices (db : DB) :
    Tx.Bucket (seeded db) "devices"
      = some (seedDevices ((Tx.Bucket db "devices").getD [])) := by
  unfold seeded
  rw [Bucket_nodePut_self]

theorem seeded_fixed (db : DB) : seeded (seeded db) = seeded db :=
  seeded_of_buckets _ _ _ (seeded_workers db) (seeded_devices db)
    (seedWorkers_fixed _) (seedDevices_fixed _)

theorem initDataTx_seeded (db : DB) : initDataTx (seeded db) = .ok (seeded db) := by
  have h := initDataTx_ok (seeded db) ?_ ?_
  · rw [h, seeded_fixed]
  · rw [seeded_workers]
    obtain ⟨h1, h2, h3⟩ := seedWorkers_lookup ((Tx.Bucket db "workers").getD [])
    intro k hk
    simp only [List.mem_cons, List.mem_singleton, List.not_mem_nil, or_false] at hk
    rcases hk with rfl | rfl | rfl
    · simp [h1]
    · simp [h2]
    · simp [h3]
  · rw [seeded_devices]
    obtain ⟨h1, h2, h3⟩ := seedDevices_lookup ((Tx.Bucket db "devices").getD [])
    intro k hk
    simp only [List.mem_cons, List.mem_singleton, List.not_mem_nil, or_false] at hk
    rcases hk with rfl | rfl | rfl
    · simp [h1]
    · simp [h2]
    · simp [h3]

/-- C4: `initData` is idempotent. For every store, the store left by a second
run equals the store left by the first run, and the second run ends as the
first did (it returns the same store, or fails with the same error on the
store the rollback left unchanged). From the fresh store both runs leave the
same three keys and values in each bucket. -/
theorem C4_initData_idempotent (db : DB) :
    storeAfterInitData (storeAfterInitData db) = storeAfterInitData db ∧
    initData (storeAfterInitData db) = initData db ∧
    storeAfterInitData (storeAfterInitData []) =
      [("devices", [("d1", .bytes "1,Host 1,Device 1"), ("d2", .bytes "2,Host 2,Device 2"),
          ("d3", .bytes "3,Host 3,Device 3")]),
       ("workers", [("w1", .bytes "1,Worker 1,Type A"), ("w2", .bytes "2,Worker 2,Type B"),
          ("w3", .bytes "3,Worker 3,Type C")])] ∧
    storeAfterInitData (storeAfterInitData []) = storeAfterInitData [] := by
  refine ⟨?_, ?_, by decide, by decide⟩
  · cases h : initDataTx db with
    | error e => rw [(storeAfterInitData_error db e h).1, (storeAfterInitData_error db e h).1]
    | ok db1 =>
      rw [(storeAfterInitData_ok db db1 h).1, initDataTx_eq db db1 h]
      exact (storeAfterInitData_ok _ _ (initDataTx_seeded db)).1
  · cases h : initDataTx db with
    | error e => rw [(storeAfterInitData_error db e h).1]
    | ok db1 =>
      rw [(storeAfterInitData_ok db db1 h).1, (storeAfterInitData_ok db db1 h).2,
        initDataTx_eq db db1 h]
      exact (storeAfterInitData_ok _ _ (initDataTx_seeded db)).2

/-- C8: `initData` changes nothing outside the six seeded keys. For every
starting store, the top-level buckets other than "workers" and "devices", the
elements of "workers" with a key other than "w1", "w2", "w3" and the elements
of "devices" with a key other than "d1", "d2", "d3" are the same, in the same
order, after `initData` as before. -/
theorem C8_initData_frame (db : DB) :
    (storeAfterInitData db).filter (fun e => !(["workers", "devices"].contains e.1))
      = db.filter (fun e => !(["workers", "devices"].contains e.1)) ∧
    ((Tx.Bucket (storeAfterInitData db) "workers").getD []).filter
        (fun e => !(["w1", "w2", "w3"].contains e.1))
      = ((Tx.Bucket db "workers").getD []).filter
        (fun e => !(["w1", "w2", "w3"].contains e.1)) ∧
    ((Tx.Bucket (storeAfterInitData db) "devices").getD []).filter
        (fun e => !(["d1", "d2", "d3"].contains e.1))
      = ((Tx.Bucket db "devices").getD []).filter
        (fun e => !(["d1", "d2", "d3"].contains e.1)) := by
  cases h : initDataTx db with
  | error e =>
    rw [(storeAfterInitData_error db e h).1]
    exact ⟨rfl, rfl, rfl⟩
  | ok db1 =>
    rw [(storeAfterInitData_ok db db1 h).1, initDataTx_eq db db1 h]
    refine ⟨?_, ?_, ?_⟩
    · unfold seeded
      rw [filter_nodePut (fun k => !(["workers", "devices"].contains k)) _ _ _ (by decide),
        filter_nodePut (fun k => !(["workers", "devices"].contains k)) _ _ _ (by decide)]
    · rw [seeded_workers]
      simp only [Option.getD_some]
      unfold seedWorkers
      rw [filter_nodePut (fun k => !(["w1", "w2", "w3"].contains k)) _ _ _ (by decide),
        filter_nodePut (fun k => !(["w1", "w2", "w3"].contains k)) _ _ _ (by decide),
        filter_nodePut (fun k => !(["w1", "w2", "w3"].contains k)) _ _ _ (by decide)]
    · rw [seeded_devices]
      simp only [Option.getD_some]
      unfold seedDevices
      rw [filter_nodePut (fun k => !(["d1", "d2", "d3"].contains k)) _ _ _ (by decide),
        filter_nodePut (fun k => !(["d1", "d2", "d3"].contains k)) _ _ _ (by decide),
        filter_nodePut (fun k => !(["d1", "d2", "d3"].contains k)) _ _ _ (by decide)]

/-! ## The renderer -/

theorem SetCell_new_row (t : Table) (c : TableCell) :
    SetCell t t.length 0 c = t ++ [[c]] := by
  unfold SetCell
  simp [List.getD_eq_getElem?_getD, List.set_append]

theorem SetCell_extend_row (t : Table) (row : List TableCell) (c : TableCell) :
    SetCell (t ++ [row]) t.length row.length c = t ++ [row ++ [c]] := by
  unfold SetCell
  simp [List.getD_eq_getElem?_getD, List.set_append]

theorem rangeLoop_rows {α : Type} (f0 f1 f2 : α → TableCell) (xs : List α) (t : Table)
    (r : Nat) (h : t.length = r + 1) :
    rangeLoop (fun table r x =>
        SetCell (SetCell (SetCell table (r + 1) 0 (f0 x)) (r + 1) 1 (f1 x)) (r + 1) 2 (f2 x))
      xs r t = t ++ xs.map (fun x => [f0 x, f1 x, f2 x]) := by
  induction xs generalizing t r with
  | nil => simp [rangeLoop]
  | cons x xs ih =>
    simp only [rangeLoop]
    have e0 : SetCell t (r + 1) 0 (f0 x) = t ++ [[f0 x]] := by
      rw [← h]; exact SetCell_new_row t (f0 x)
    have e1 : SetCell (t ++ [[f0 x]]) (r + 1) 1 (f1 x) = t ++ [[f0 x, f1 x]] := by
      rw [← h]; exact SetCell_extend_row t [f0 x] (f1 x)
    have e2 : SetCell (t ++ [[f0 x, f1 x]]) (r + 1) 2 (f2 x) = t ++ [[f0 x, f1 x, f2 x]] := by
      rw [← h]; exact SetCell_extend_row t [f0 x, f1 x] (f2 x)
    rw [e0, e1, e2, ih _ (r + 1) (by simp [h])]
    simp

theorem header_workers :
    rangeLoop (fun table i col =>
        SetCell table 0 i ((NewTableCell col).SetTextColor .yellow))
      ["ID", "Name", "Type"] 0 ([] : Table) = [headerRow ["ID", "Name", "Type"]] := by
  decide

theorem header_devices :
    rangeLoop (fun table i col =>
        SetCell table 0 i ((NewTableCell col).SetTextColor .yellow))
      ["ID", "Host", "Name"] 0 ([] : Table) = [headerRow ["ID", "Host", "Name"]] := by
  decide

theorem displayTable_workers (table : Table) (data : List Worker) :
    displayTable table (.workers data)
      = headerRow ["ID", "Name", "Type"] :: data.map workerRow := by
  simp only [displayTable, Table.Clear]
  rw [header_workers]
  have h := rangeLoop_rows (fun w => NewTableCell (formatInt w.ID))
    (fun w => NewTableCell w.Name) (fun w : Worker => NewTableCell w.Type_) data
    [headerRow ["ID", "Name", "Type"]] 0 rfl
  rw [h]
  rfl

theorem displayTable_devices (table : Table) (data : List Device) :
    displayTable table (.devices data)
      = headerRow ["ID", "Host", "Name"] :: data.map deviceRow := by
  simp only [displayTable, Table.Clear]
  rw [header_devices]
  have h := rangeLoop_rows (fun d => NewTableCell (formatInt d.ID))
    (fun d => NewTableCell d.Host) (fun d : Device => NewTableCell d.Name) data
    [headerRow ["ID", "Host", "Name"]] 0 rfl
  rw [h]
  rfl

/-- C6: whatever cells the table held before, after `displayTable` on a list of
n workers it holds n+1 rows and nothing else: the yellow header "ID", "Name",
"Type" and, for the r-th worker in the order received, the row of the decimal
text of its ID, its Name and its Type; likewise for devices with the header
"ID", "Host", "Name" and the rows ID, Host, Name. The result does not depend
on the table's prior contents. -/
theorem C6_displayTable_contents (table : Table) (ws : List Worker) (ds : List Device) :
    displayTable table (.workers ws)
      = headerRow ["ID", "Name", "Type"] :: ws.map workerRow ∧
    texts (displayTable table (.workers ws))
      = ["ID", "Name", "Type"] :: ws.map (fun w => [formatInt w.ID, w.Name, w.Type_]) ∧
    (displayTable table (.workers ws)).length = ws.length + 1 ∧
    displayTable table (.devices ds)
      = headerRow ["ID", "Host", "Name"] :: ds.map deviceRow ∧
    texts (displayTable table (.devices ds))
      = ["ID", "Host", "Name"] :: ds.map (fun d => [formatInt d.ID, d.Host, d.Name]) ∧
    (displayTable table (.devices ds)).length = ds.length + 1 ∧
    displayTable table (.workers ws) = displayTable [] (.workers ws) ∧
    displayTable table (.devices ds) = displayTable [] (.devices ds) := by
  refine ⟨displayTable_workers table ws, ?_, ?_, displayTable_devices table ds, ?_, ?_, ?_, ?_⟩
  · rw [displayTable_workers]
    simp [texts, headerRow, workerRow, NewTableCell, TableCell.SetTextColor]
  · rw [displayTable_workers]
    simp
  · rw [displayTable_devices]
    simp [texts, headerRow, deviceRow, NewTableCell, TableCell.SetTextColor]
  · rw [displayTable_devices]
    simp
  · rw [displayTable_workers, displayTable_workers]
  · rw [displayTable_devices, displayTable_devices]

/-! ## The navigation shell -/

theorem main_eq (db0 : DB) (s0 : App) (h : main db0 = .ok s0) :
    s0 = { stopped := false
           pages := [{ Name := "Workers", Visible := false },
                     { Name := "Devices", Visible := false }]
           workers := []
           devices := []
           db := seeded db0
           calls := [] } := by
  unfold main at h
  cases hi : initData db0 with
  | error e => simp [hi] at h
  | ok db1 =>
    simp only [hi, Except.ok.injEq] at h
    have hd : db1 = seeded db0 := by
      unfold initData Update at hi
      cases ht : initDataTx db0 with
      | error e => simp [ht] at hi
      | ok d =>
        simp only [ht, Except.ok.injEq] at hi
        rw [← hi]
        exact initDataTx_eq db0 d ht
    rw [← h, hd]
    rfl

theorem main_inv (db0 : DB) (s0 : App) (h : main db0 = .ok s0) :
    Inv s0 ∧ s0.stopped = false := by
  rw [main_eq db0 s0 h]
  refine ⟨⟨?_, ?_, Or.inl rfl⟩, rfl⟩
  · simp [seeded_workers]
  · simp [seeded_devices]

theorem showWorkers_ok (s : App) (h : Inv s) :
    ∃ b, Tx.Bucket s.db "workers" = some b ∧
      fetchWorkers s.db = .ok (b.map (fun e => decodeWorker e.2.toBytes)) ∧
      showWorkers s = .ok { s with
        workers := displayTable s.workers
          (.workers (b.map (fun e => decodeWorker e.2.toBytes)))
        pages := [{ Name := "Workers", Visible := true },
                  { Name := "Devices", Visible := false }]
        calls := s.calls ++ [.fetchWorkers, .displayTable "Workers"] } := by
  obtain ⟨hw, -, hp⟩ := h
  cases hb : Tx.Bucket s.db "workers" with
  | none => simp [hb] at hw
  | some b =>
    have hf := fetchWorkers_of_bucket s.db b hb
    refine ⟨b, rfl, hf, ?_⟩
    unfold showWorkers
    simp only [hf]
    rcases hp with hp | hp | hp <;> rw [hp] <;> rfl

theorem showDevices_ok (s : App) (h : Inv s) :
    ∃ b, Tx.Bucket s.db "devices" = some b ∧
      fetchDevices s.db = .ok (b.map (fun e => decodeDevice e.2.toBytes)) ∧
      showDevices s = .ok { s with
        devices := displayTable s.devices
          (.devices (b.map (fun e => decodeDevice e.2.toBytes)))
        pages := [{ Name := "Workers", Visible := false },
                  { Name := "Devices", Visible := true }]
        calls := s.calls ++ [.fetchDevices, .displayTable "Devices"] } := by
  obtain ⟨-, hd, hp⟩ := h
  cases hb : Tx.Bucket s.db "devices" with
  | none => simp [hb] at hd
  | some b =>
    have hf := fetchDevices_of_bucket s.db b hb
    refine ⟨b, rfl, hf, ?_⟩
    unfold showDevices
    simp only [hf]
    rcases hp with hp | hp | hp <;> rw [hp] <;> rfl

theorem inputCapture_a (s : App) : inputCapture 'a' s = showWorkers s := by
  unfold inputCapture
  simp

theorem inputCapture_b (s : App) : inputCapture 'b' s = showDevices s := by
  unfold inputCapture
  simp

theorem inputCapture_q (s : App) : inputCapture 'q' s = .ok { s with stopped := true } := by
  unfold inputCapture
  simp

theorem inputCapture_other (r : Char) (s : App) (ha : r ≠ 'a') (hb : r ≠ 'b') (hq : r ≠ 'q') :
    inputCapture r s = .ok s := by
  unfold inputCapture
  simp [ha, hb, hq]

theorem inputCapture_inv (r : Char) (s : App) (h : Inv s) (hq : r ≠ 'q') :
    ∃ s1, inputCapture r s = .ok s1 ∧ Inv s1 ∧ s1.stopped = s.stopped ∧ s1.db = s.db := by
  by_cases ha : r = 'a'
  · subst ha
    obtain ⟨b, hb, -, hs⟩ := showWorkers_ok s h
    rw [inputCapture_a, hs]
    exact ⟨_, rfl, ⟨h.1, h.2.1, Or.inr (Or.inl rfl)⟩, rfl, rfl⟩
  · by_cases hb : r = 'b'
    · subst hb
      obtain ⟨b, hb, -, hs⟩ := showDevices_ok s h
      rw [inputCapture_b, hs]
      exact ⟨_, rfl, ⟨h.1, h.2.1, Or.inr (Or.inr rfl)⟩, rfl, rfl⟩
    · exact ⟨s, inputCapture_other r s ha hb hq, h, rfl, rfl⟩

theorem dispatch_eq (event : EventKey) (s s1 : App)
    (h : inputCapture event.Rune s = .ok s1) :
    dispatch event s
      = .ok { s1 with stopped := s1.stopped || decide (event.Key = KeyCtrlC) } := by
  unfold dispatch
  rw [h]
  by_cases hk : event.Key = KeyCtrlC
  · simp [hk]
  · simp [hk]

theorem reachable_inv (s : App) (h : Reachable s) : Inv s := by
  induction h with
  | start db0 s0 h0 => exact (main_inv db0 s0 h0).1
  | key s s1 event _ hs hk ih =>
    by_cases hq : event.Rune = 'q'
    · rw [dispatch_eq event s _ (by rw [hq]; exact inputCapture_q s)] at hk
      cases hk
      exact ih
    · obtain ⟨s2, e, hi, -, -⟩ := inputCapture_inv event.Rune s ih hq
      rw [dispatch_eq event s s2 e] at hk
      cases hk
      exact hi

theorem run_stopped (keys : List EventKey) (s : App) (h : s.stopped = true) :
    run keys s = .ok s := by
  cases keys with
  | nil => rfl
  | cons k ks => simp [run, h]

theorem run_append (xs ys : List EventKey) (s : App) :
    run (xs ++ ys) s =
      match run xs s with
      | .error e => .error e
      | .ok s1 => run ys s1 := by
  induction xs generalizing s with
  | nil => simp [run]
  | cons x xs ih =>
    simp only [List.cons_append, run]
    by_cases hs : s.stopped = true
    · simp [hs, run_stopped ys s hs]
    · simp only [hs, if_false]
      cases hi : dispatch x s with
      | error e => simp
      | ok s1 => simp only []; exact ih s1

theorem run_no_stop (keys : List EventKey) (s : App) (h : Inv s) (hs : s.stopped = false)
    (hq : ∀ ev ∈ keys, ev.Rune ≠ 'q') (hc : ∀ ev ∈ keys, ev.Key ≠ KeyCtrlC) :
    ∃ s1, run keys s = .ok s1 ∧ Inv s1 ∧ s1.stopped = false ∧ s1.db = s.db := by
  induction keys generalizing s with
  | nil => exact ⟨s, rfl, h, hs, rfl⟩
  | cons k ks ih =>
    have hk : k.Rune ≠ 'q' := hq k (List.mem_cons_self _ _)
    have hkc : k.Key ≠ KeyCtrlC := hc k (List.mem_cons_self _ _)
    obtain ⟨s1, e1, i1, st1, d1⟩ := inputCapture_inv k.Rune s h hk
    have e1d : dispatch k s = .ok s1 := by
      rw [dispatch_eq k s s1 e1]
      simp [hkc]
    obtain ⟨s2, e2, i2, st2, d2⟩ := ih s1 i1 (by rw [st1, hs])
      (fun ev hev => hq ev (List.mem_cons_of_mem _ hev))
      (fun ev hev => hc ev (List.mem_cons_of_mem _ hev))
    refine ⟨s2, ?_, i2, st2, by rw [d2, d1]⟩
    simp only [run, hs, e1d]
    simpa using e2

/-- Keys whose rune the handler ignores change nothing but the stop flag, which
Ctrl-C sets. -/
theorem run_ignored (keys : List EventKey) (s : App)
    (h : ∀ x ∈ keys, x.Rune ≠ 'a' ∧ x.Rune ≠ 'b' ∧ x.Rune ≠ 'q') :
    run keys s = .ok { s with
      stopped := s.stopped || keys.any (fun ev => decide (ev.Key = KeyCtrlC)) } := by
  induction keys generalizing s with
  | nil => simp [run]
  | cons k ks ih =>
    obtain ⟨ha, hb, hq⟩ := h k (List.mem_cons_self _ _)
    by_cases hs : s.stopped = true
    · simp [run, hs]
      cases s
      simp_all
    · have hs2 : s.stopped = false := by simpa using hs
      simp only [run, hs, if_false,
        dispatch_eq k s s (inputCapture_other k.Rune s ha hb hq)]
      rw [ih _ (fun x hx => h x (List.mem_cons_of_mem _ hx))]
      simp [hs2, List.any_cons]

theorem freshStart_main : main [] = .ok freshStart := rfl

/-- C5: the key dispatcher is a state machine over no page shown, workers page
shown, devices page shown and terminated. In every reachable state that is not
stopped at most one of the two pages is visible; rune 'a' leads to a state
with only the page "Workers" visible, rune 'b' to a state with only the page
"Devices" visible; rune 'q' stops the application without any accessor or
renderer call, leaves pages and tables as they are, and no later key changes
the stopped state; every other rune, uppercase 'A', 'B', 'Q' included, leaves
the whole state unchanged. -/
theorem C5_key_dispatcher (s : App) (hr : Reachable s) (hs : s.stopped = false) :
    (visiblePages s = [] ∨ visiblePages s = ["Workers"] ∨ visiblePages s = ["Devices"]) ∧
    (∃ s1, inputCapture 'a' s = .ok s1 ∧ s1.stopped = false ∧
      visiblePages s1 = ["Workers"] ∧ s1.devices = s.devices) ∧
    (∃ s1, inputCapture 'b' s = .ok s1 ∧ s1.stopped = false ∧
      visiblePages s1 = ["Devices"] ∧ s1.workers = s.workers) ∧
    (∃ s1, inputCapture 'q' s = .ok s1 ∧ s1.stopped = true ∧ s1.calls = s.calls ∧
      s1.pages = s.pages ∧ s1.workers = s.workers ∧ s1.devices = s.devices ∧
      ∀ keys, run keys s1 = .ok s1) ∧
    (∀ r, r ≠ 'a' → r ≠ 'b' → r ≠ 'q' → inputCapture r s = .ok s) ∧
    inputCapture 'A' s = .ok s ∧ inputCapture 'B' s = .ok s ∧ inputCapture 'Q' s = .ok s := by
  have hi := reachable_inv s hr
  refine ⟨?_, ?_, ?_, ?_, ?_, ?_, ?_, ?_⟩
  · rcases hi.2.2 with hp | hp | hp
    · left; simp [visiblePages, hp]
    · right; left; simp [visiblePages, hp]
    · right; right; simp [visiblePages, hp]
  · obtain ⟨b, -, -, e⟩ := showWorkers_ok s hi
    rw [inputCapture_a, e]
    exact ⟨_, rfl, hs, by simp [visiblePages], rfl⟩
  · obtain ⟨b, -, -, e⟩ := showDevices_ok s hi
    rw [inputCapture_b, e]
    exact ⟨_, rfl, hs, by simp [visiblePages], rfl⟩
  · rw [inputCapture_q]
    exact ⟨_, rfl, rfl, rfl, rfl, rfl, rfl, fun keys => run_stopped keys _ rfl⟩
  · intro r ha hb hq
    exact inputCapture_other r s ha hb hq
  · exact inputCapture_other _ s (by decide) (by decide) (by decide)
  · exact inputCapture_other _ s (by decide) (by decide) (by decide)
  · exact inputCapture_other _ s (by decide) (by decide) (by decide)

/-- Witness of C5: the state in which the event loop starts on a fresh store. -/
theorem C5_key_dispatcher_witness :
    Reachable freshStart ∧ freshStart.stopped = false ∧
    (∃ s1, inputCapture 'a' freshStart = .ok s1 ∧ s1.stopped = false ∧
      visiblePages s1 = ["Workers"] ∧ s1.devices = freshStart.devices) ∧
    inputCapture 'Q' freshStart = .ok freshStart :=
  ⟨Reachable.start [] freshStart freshStart_main, rfl,
   (C5_key_dispatcher freshStart (Reachable.start [] freshStart freshStart_main) rfl).2.1,
   (C5_key_dispatcher freshStart
      (Reachable.start [] freshStart freshStart_main) rfl).2.2.2.2.2.2.2⟩

/-- C9, the claim as stated fails. First, Ctrl-C is neither 'q' nor 'a' nor
'b', yet after the keys Ctrl-C, 'a' on a fresh store the application is stopped,
no page is visible and the workers table is empty: `Application.Run` stops on
Ctrl-C before 'a' is handled. Second, after 'a', 'b', 'a' on a fresh store the
rows of the workers table are not the rows of the three seeded workers. -/
theorem C9_counterexample :
    ((∀ ev ∈ [NewEventKey KeyCtrlC (Char.ofNat 3), NewEventKey KeyRune 'a'],
        ev.Rune ≠ 'q') ∧
     (∃ ev ∈ [NewEventKey KeyCtrlC (Char.ofNat 3), NewEventKey KeyRune 'a'],
        ev.Rune = 'a') ∧
     run [NewEventKey KeyCtrlC (Char.ofNat 3), NewEventKey KeyRune 'a'] freshStart
        = .ok { freshStart with stopped := true } ∧
     visiblePages { freshStart with stopped := true } = [] ∧
     ({ freshStart with stopped := true } : App).workers = []) ∧
    (∃ s, run [NewEventKey KeyRune 'a', NewEventKey KeyRune 'b', NewEventKey KeyRune 'a']
        freshStart = .ok s ∧
      texts s.workers = [["ID", "Name", "Type"], ["1", "Worker", ""], ["2", "Worker", ""],
        ["3", "Worker", ""]] ∧
      texts s.workers ≠ ["ID", "Name", "Type"] ::
        [newWorker 1, newWorker 2, newWorker 3].map
          (fun w => [formatInt w.ID, w.Name, w.Type_])) :=
  ⟨⟨by decide, by decide, rfl, by decide, rfl⟩, ⟨_, rfl, by decide, by decide⟩⟩

/-- C9, amended: from the state in which `main` starts the event loop, a
sequence of key events without the rune 'q', without Ctrl-C before its last
'a' or 'b', and whose last 'a' or 'b' is `c`, is processed without error and
leaves the store as seeded; the only visible page is the one `c` selects, and
its table is `displayTable` of what the accessor of that bucket returns, the
header followed by one row per element of that bucket alone; the application
is stopped exactly when `c` or a later key is Ctrl-C. After 'a', 'b', 'a' on a
fresh store the visible page is "Workers" and its table holds the workers
header and one row for each of the three seeded worker values, in key order,
with the IDs 1, 2, 3 in the first column. -/
theorem C9_last_selection_shown (db0 : DB) (s0 : App) (h0 : main db0 = .ok s0)
    (pre post : List EventKey) (c : EventKey) (hc : c.Rune = 'a' ∨ c.Rune = 'b')
    (hq : ∀ ev ∈ pre ++ c :: post, ev.Rune ≠ 'q')
    (hctrl : ∀ ev ∈ pre, ev.Key ≠ KeyCtrlC)
    (hpost : ∀ x ∈ post, x.Rune ≠ 'a' ∧ x.Rune ≠ 'b') :
    (∃ s, run (pre ++ c :: post) s0 = .ok s ∧ s.db = s0.db ∧
      s.stopped = (c :: post).any (fun ev => decide (ev.Key = KeyCtrlC)) ∧
      visiblePages s = [if c.Rune = 'a' then "Workers" else "Devices"] ∧
      if c.Rune = 'a' then
        ∃ b, Tx.Bucket s.db "workers" = some b ∧
          fetchWorkers s.db = .ok (b.map (fun e => decodeWorker e.2.toBytes)) ∧
          s.workers = displayTable [] (.workers (b.map (fun e => decodeWorker e.2.toBytes))) ∧
          s.workers = headerRow ["ID", "Name", "Type"]
            :: (b.map (fun e => decodeWorker e.2.toBytes)).map workerRow
      else
        ∃ b, Tx.Bucket s.db "devices" = some b ∧
          fetchDevices s.db = .ok (b.map (fun e => decodeDevice e.2.toBytes)) ∧
          s.devices = displayTable [] (.devices (b.map (fun e => decodeDevice e.2.toBytes))) ∧
          s.devices = headerRow ["ID", "Host", "Name"]
            :: (b.map (fun e => decodeDevice e.2.toBytes)).map deviceRow) ∧
    (∃ s, run [NewEventKey KeyRune 'a', NewEventKey KeyRune 'b', NewEventKey KeyRune 'a']
        freshStart = .ok s ∧ s.stopped = false ∧ visiblePages s = ["Workers"] ∧
      s.workers = headerRow ["ID", "Name", "Type"] ::
        [decodeWorker (encodeWorker (newWorker 1)), decodeWorker (encodeWorker (newWorker 2)),
          decodeWorker (encodeWorker (newWorker 3))].map workerRow ∧
      s.workers.length = 4 ∧
      (texts s.workers).map (fun row => row.head?) =
        [some "ID", some "1", some "2", some "3"]) := by
  constructor
  · obtain ⟨i0, st0⟩ := main_inv db0 s0 h0
    have hqpre : ∀ ev ∈ pre, ev.Rune ≠ 'q' :=
      fun ev hev => hq ev (List.mem_append_left _ hev)
    have hqpost : ∀ x ∈ post, x.Rune ≠ 'a' ∧ x.Rune ≠ 'b' ∧ x.Rune ≠ 'q' := by
      intro x hx
      exact ⟨(hpost x hx).1, (hpost x hx).2,
        hq x (List.mem_append_right _ (List.mem_cons_of_mem _ hx))⟩
    obtain ⟨s1, e1, i1, st1, d1⟩ := run_no_stop pre s0 i0 st0 hqpre hctrl
    rw [run_append, e1]
    simp only [run, st1]
    rcases hc with hca | hcb
    · obtain ⟨b, hb, hf, e⟩ := showWorkers_ok s1 i1
      have ed := dispatch_eq c s1 _ (by rw [hca, inputCapture_a]; exact e)
      simp only [Bool.false_eq_true, if_false, ed]
      rw [run_ignored post _ hqpost]
      refine ⟨_, rfl, d1, ?_, by simp [visiblePages, hca], ?_⟩
      · simp [st1, List.any_cons]
      · simp only [hca, if_true]
        refine ⟨b, hb, hf, ?_, ?_⟩
        · rw [displayTable_workers, displayTable_workers]
        · rw [displayTable_workers]
    · obtain ⟨b, hb, hf, e⟩ := showDevices_ok s1 i1
      have ed := dispatch_eq c s1 _ (by rw [hcb, inputCapture_b]; exact e)
      simp only [Bool.false_eq_true, if_false, ed]
      rw [run_ignored post _ hqpost]
      have hne : ¬ ('b' = 'a') := by decide
      refine ⟨_, rfl, d1, ?_, by simp [visiblePages, hcb], ?_⟩
      · simp [st1, List.any_cons]
      · simp only [hcb, hne, if_false]
        refine ⟨b, hb, hf, ?_, ?_⟩
        · rw [displayTable_devices, displayTable_devices]
        · rw [displayTable_devices]
  · exact ⟨_, rfl, rfl, by decide, by decide, by decide, by decide⟩

/-- Witness of the amended C9: the keys 'x', 'a', 'b', Ctrl-C on a fresh
store. -/
theorem C9_last_selection_shown_witness :
    main [] = .ok freshStart ∧
    ((NewEventKey KeyRune 'b').Rune = 'a' ∨ (NewEventKey KeyRune 'b').Rune = 'b') ∧
    (∀ ev ∈ [NewEventKey KeyRune 'x', NewEventKey KeyRune 'a'] ++
        NewEventKey KeyRune 'b' :: [NewEventKey KeyCtrlC (Char.ofNat 3)], ev.Rune ≠ 'q') ∧
    (∀ ev ∈ [NewEventKey KeyRune 'x', NewEventKey KeyRune 'a'], ev.Key ≠ KeyCtrlC) ∧
    (∀ x ∈ [NewEventKey KeyCtrlC (Char.ofNat 3)], x.Rune ≠ 'a' ∧ x.Rune ≠ 'b') ∧
    ∃ s, run ([NewEventKey KeyRune 'x', NewEventKey KeyRune 'a'] ++
        NewEventKey KeyRune 'b' :: [NewEventKey KeyCtrlC (Char.ofNat 3)]) freshStart = .ok s ∧
      s.db = freshStart.db ∧
      s.stopped = (NewEventKey KeyRune 'b' :: [NewEventKey KeyCtrlC (Char.ofNat 3)]).any
        (fun ev => decide (ev.Key = KeyCtrlC)) ∧
      visiblePages s = [if (NewEventKey KeyRune 'b').Rune = 'a' then "Workers" else "Devices"] :=
  ⟨rfl, by decide, by decide, by decide, by decide,
   by
    obtain ⟨s, h1, h2, h3, h4, -⟩ :=
      (C9_last_selection_shown [] freshStart rfl
        [NewEventKey KeyRune 'x', NewEventKey KeyRune 'a']
        [NewEventKey KeyCtrlC (Char.ofNat 3)] (NewEventKey KeyRune 'b') (by decide)
        (by decide) (by decide) (by decide)).1
    exact ⟨s, h1, h2, h3, h4⟩⟩

end TuiGo
